import Mathlib

/-!
# TracerLib.TimeTracer (timetracer.hpp)

A shallow embedding of the scope-timer tracer of `timetracer.hpp`.

* The static members of `TimeTracer` become the record `Statics`, threaded
  explicitly through every operation.
* `std::ofstream` becomes `OFStream`: whether a file is attached, whether the
  stream is free of error flags, and the bytes put into the attached file.
* A `TimeTracer` object is a record of its data members; the constructor and the
  destructor are functions on `Statics` and that record.
* The clock reading `getTimeNow()`, the hash of the thread id and the answer of the
  operating system to `open` are inputs of the operation that uses them.
* `std::string` values are `String`s; `find` and `replace` work on the character list.
* `long long` subtraction is subtraction in `Int`: the operands are readings of
  one clock, far from the ends of the 64-bit range.
-/

namespace TracerLib

/-! ## The standard library pieces the header uses -/

/-- The stream `std::ofstream`, as far as the tracer observes it. `content` holds the bytes put
into the file the stream is, or was last, attached to. -/
structure OFStream where
  is_open : Bool
  good : Bool
  path : String
  content : String
deriving DecidableEq, Repr

namespace OFStream

/-- A default-constructed stream: no file attached, no error flag. -/
def closed : OFStream :=
  { is_open := false, good := true, path := "", content := "" }

/-- Library function `ofstream::open(name)`. The buffer refuses to open when a file is already
attached; otherwise the operating system decides (`osOk`). On failure `failbit` is
set and nothing else changes; on success the error flags are cleared and the file
starts empty (mode `out` truncates). -/
def open_ (f : OFStream) (name : String) (osOk : Bool) : OFStream :=
  if f.is_open then { f with good := false }
  else if osOk then { is_open := true, good := true, path := name, content := "" }
  else { f with good := false }

/-- Insertion `stream << str`. With an error flag set the insertion does nothing; with no file
attached the buffer rejects the bytes and the stream goes bad. Writes to an attached
file are taken to succeed. -/
def put (f : OFStream) (str : String) : OFStream :=
  if f.good then
    if f.is_open then { f with content := f.content ++ str } else { f with good := false }
  else f

/-- Library function `ofstream::flush()`: the bytes already put stay where they are. -/
def flush (f : OFStream) : OFStream := f

/-- Library function `ofstream::close()`: detaches the file; fails (failbit) when none is attached. -/
def close (f : OFStream) : OFStream :=
  if f.is_open then { f with is_open := false } else { f with good := false }

end OFStream

/-- Library function `std::string::find(pat, pos)` searched in the tail `l` whose first character has
index `i`. -/
def findFrom (pat : List Char) : List Char → Nat → Option Nat
  | [], i => if pat = [] then some i else none
  | c :: cs, i => if pat.isPrefixOf (c :: cs) then some i else findFrom pat cs (i + 1)

/-- Library function `std::string::find(pat, pos)`: the least index `i ≥ pos` at which `pat` occurs,
`none` for `npos`. -/
def std_find (s pat : List Char) (pos : Nat) : Option Nat :=
  if pos > s.length then none else findFrom pat (s.drop pos) pos

/-- Library function `std::string::replace(pos, len, rep)` for `pos ≤ size`. -/
def std_replace (s : List Char) (pos len : Nat) (rep : List Char) : List Char :=
  s.take pos ++ rep ++ s.drop (pos + len)

/-- Library function `std::to_string` on a signed integer. -/
def to_string (i : Int) : String := toString i

/-- One value inserted into `std::cout`: a piece of text, or the `double` that is
`micros * 0.001`. -/
inductive CoutItem where
  | text (s : String)
  | millis (micros : Int)
deriving DecidableEq, Repr

/-! ## Static state -/

/-- The static data members of `TimeTracer` together with `std::cout`. -/
structure Statics where
  ms_bIsEnabled : Bool
  ms_OutputFileStream : OFStream
  ms_bIsFirstEvent : Bool
  ms_iZeroTime : Int
  cout : List CoutItem
deriving DecidableEq, Repr

/-- The static initialisers of the header. -/
def Statics.init : Statics :=
  { ms_bIsEnabled := false
    ms_OutputFileStream := OFStream.closed
    ms_bIsFirstEvent := true
    ms_iZeroTime := 0
    cout := [] }

/-- The non-static data members of a `TimeTracer` object. `m_dDurationMillis` keeps
the microsecond difference whose product with `0.001` is the stored `double`. -/
structure TimeTracer where
  m_bIsInitialized : Bool
  m_bPrintToTerminal : Bool
  m_sFileName : String
  m_sFunctionName : String
  m_iLineNumber : Int
  m_iThreadId : String
  m_iBeginTime : Int
  m_iEndTime : Int
  m_dDurationMillis : Int
deriving DecidableEq, Repr

/-- The file name `enable()` uses. -/
def defaultTracerFileName : String := "default_TimeTracer_file.json"

/-! ## Static member functions -/

/-- Member function `TimeTracer::writeToFile`: the text goes to the stream only when a file is attached. -/
def writeToFile (g : Statics) (str : String) : Statics :=
  if g.ms_OutputFileStream.is_open then
    { g with ms_OutputFileStream := g.ms_OutputFileStream.put str }
  else g

/-- Member function `TimeTracer::writeHeader`. -/
def writeHeader (g : Statics) : Statics :=
  writeToFile g "\x7b\"displayTimeUnit\": \"ms\",\"traceEvents\":[\n"

/-- Member function `TimeTracer::writeFooter`. -/
def writeFooter (g : Statics) : Statics :=
  writeToFile g "]\x7d"

/-- Member function `TimeTracer::setZeroTime`, `now` being the value of `getTimeNow()`. -/
def setZeroTime (g : Statics) (now : Int) : Statics :=
  { g with ms_iZeroTime := now }

/-- Member function `TimeTracer::enable(jsonFileName)`. -/
def enable (g : Statics) (jsonFileName : String) (osOk : Bool) (now : Int) : Statics :=
  let g := { g with ms_OutputFileStream := g.ms_OutputFileStream.open_ jsonFileName osOk }
  let g := writeHeader g
  let g := setZeroTime g now
  if g.ms_OutputFileStream.is_open then { g with ms_bIsEnabled := true } else g

/-- Member function `TimeTracer::disable()`. -/
def disable (g : Statics) : Statics :=
  if g.ms_bIsEnabled then
    let g := writeFooter g
    let g := { g with ms_OutputFileStream := g.ms_OutputFileStream.flush }
    let g := { g with ms_OutputFileStream := g.ms_OutputFileStream.close }
    { g with ms_bIsEnabled := false }
  else g

/-- Member function `TimeTracer::enable()`, the overload without a file name. -/
def enable_default (g : Statics) (osOk : Bool) (now : Int) : Statics :=
  enable g defaultTracerFileName osOk now

/-- Member function `TimeTracer::start(jsonFileName)`. -/
def start (g : Statics) (jsonFileName : String) (osOk : Bool) (now : Int) : Statics :=
  enable g jsonFileName osOk now

/-- Member function `TimeTracer::stop()`. -/
def stop (g : Statics) : Statics := disable g

/-- The local string `s` that `traceQuantity` builds. -/
def traceQuantityText (g : Statics) (name : String) (val : Int) (now : Int) : String :=
  let timeNow := now - g.ms_iZeroTime
  let s := ""
  let s := ((s.append "\x7b\"name\":\"").append name).append "\",\"ph\":\"C\",\"ts\":"
  let s := (s.append (to_string timeNow)).append ",\"pid\":1,\"tid\":1"
  let s := (((s.append ",\"args\":\x7b\"").append name).append "\":").append (to_string val)
  s.append "\x7d\x7d\n"

/-- Member function `TimeTracer::traceQuantity(name, val)`. -/
def traceQuantity (g : Statics) (name : String) (val : Int) (now : Int) : Statics :=
  writeToFile g (traceQuantityText g name val now)

/-! ## Member functions -/

namespace TimeTracer

/-- Member function `TimeTracer::registerConstructionTime`, `now` being the value of
`getTimeNow()`. -/
def registerConstructionTime (g : Statics) (t : TimeTracer) (now : Int) : TimeTracer :=
  { t with m_iBeginTime := now - g.ms_iZeroTime }

/-- Member function `TimeTracer::registerFinalTime`, `now` being the value of
`getTimeNow()`. -/
def registerFinalTime (g : Statics) (t : TimeTracer) (now : Int) : TimeTracer :=
  { t with m_iEndTime := now - g.ms_iZeroTime }

/-- Member function `TimeTracer::registerThreadId`, `longId` being the hash of the thread id. -/
def registerThreadId (t : TimeTracer) (longId : Nat) : TimeTracer :=
  { t with m_iThreadId := ⟨(toString longId).data.take 5⟩ }

/-- Member function `TimeTracer::formatFunctionName`. -/
def formatFunctionName (t : TimeTracer) : TimeTracer :=
  let pattern := " __cdecl".data
  let patternLength := 8
  match std_find t.m_sFunctionName.data pattern 0 with
  | some pos => { t with m_sFunctionName := ⟨std_replace t.m_sFunctionName.data pos patternLength []⟩ }
  | none => t

/-- The `while` loop of `formatFileName` on the characters of `m_sFileName`, at most
`fuel` iterations. -/
def formatFileNameLoop : Nat → List Char → Nat → List Char
  | 0, s, _ => s
  | fuel + 1, s, start_pos =>
    let patternIn := "\\".data
    let patternOut := "\\\\".data
    let patternOutLength := 4
    match std_find s patternIn start_pos with
    | some p => formatFileNameLoop fuel (std_replace s p 1 patternOut) (p + patternOutLength)
    | none => s

/-- Member function `TimeTracer::formatFileName`. Every iteration moves `start_pos` forward by at
least four while the string grows by one, so `length + 1` iterations are never
used up. -/
def formatFileName (t : TimeTracer) : TimeTracer :=
  { t with m_sFileName := ⟨formatFileNameLoop (t.m_sFileName.length + 1) t.m_sFileName.data 0⟩ }

/-- Member function `TimeTracer::initialize()`. -/
def initialize_ (g : Statics) (t : TimeTracer) (now : Int) (longId : Nat) : TimeTracer :=
  let t := registerConstructionTime g t now
  let t := registerThreadId t longId
  let t := formatFileName t
  { t with m_bIsInitialized := true }

/-- Member function `TimeTracer::calculateDuration`: the difference is kept in
microseconds, the factor `0.001` is applied when the value is printed. -/
def calculateDuration (t : TimeTracer) : TimeTracer :=
  { t with m_dDurationMillis := t.m_iEndTime - t.m_iBeginTime }

/-- Member function `TimeTracer::printDurationMiliSec`: the values inserted into
`std::cout`, in order. -/
def printDurationMiliSec (g : Statics) (t : TimeTracer) : Statics :=
  { g with cout := g.cout ++
      [.text "Scope: ", .text t.m_sFileName, .text " - ", .text t.m_sFunctionName,
       .text " DurationMs: ", .millis t.m_dDurationMillis, .text "ms.\n"] }

/-- The local string `s` that `writeBeginEvent` builds. -/
def beginEventText (g : Statics) (t : TimeTracer) : String :=
  let s := ""
  let s := if !g.ms_bIsFirstEvent then s.append "," else s
  let s := ((s.append "\x7b\"name\":\"").append t.m_sFunctionName).append "\",\"cat\":\"bst\","
  let s := ((s.append "\"ph\":\"B\",\"ts\":").append (to_string t.m_iBeginTime)).append ",\"pid\":1,\"tid\":"
  let s := (((s.append t.m_iThreadId).append ",\"args\":\x7b\"file path\":\"").append t.m_sFileName).append
    "\",\"line number\":"
  (s.append (to_string t.m_iLineNumber)).append "\x7d\x7d\n"

/-- Member function `TimeTracer::writeBeginEvent`. -/
def writeBeginEvent (g : Statics) (t : TimeTracer) : Statics :=
  let g := writeToFile g (beginEventText g t)
  { g with ms_bIsFirstEvent := false }

/-- The local string `s` that `writeEndEvent` builds. -/
def endEventText (t : TimeTracer) : String :=
  let s := ""
  let s := ((s.append ",\x7b\"name\":\"").append t.m_sFunctionName).append "\",\"cat\":\"bst\","
  let s := ((s.append "\"ph\":\"E\",\"ts\":").append (to_string t.m_iEndTime)).append ",\"pid\":1,\"tid\":"
  let s := (((s.append t.m_iThreadId).append ",\"args\":\x7b\"file path\":\"").append t.m_sFileName).append
    "\",\"line number\":"
  (s.append (to_string t.m_iLineNumber)).append "\x7d\x7d\n"

/-- Member function `TimeTracer::writeEndEvent`. -/
def writeEndEvent (g : Statics) (t : TimeTracer) : Statics :=
  writeToFile g (endEventText t)

/-- Member function `TimeTracer::printToTerminalIsSet`. -/
def printToTerminalIsSet (t : TimeTracer) : Bool := t.m_bPrintToTerminal

/-- Member function `TimeTracer::setPrintToTerminal`. -/
def setPrintToTerminal (t : TimeTracer) (s : Bool) : TimeTracer :=
  { t with m_bPrintToTerminal := s }

/-- The member initialiser list of the constructor. -/
def memberInit (file function : String) (lineNumber : Int) : TimeTracer :=
  { m_bIsInitialized := false
    m_bPrintToTerminal := false
    m_sFileName := file
    m_sFunctionName := function
    m_iLineNumber := lineNumber
    m_iThreadId := "0"
    m_iBeginTime := 0
    m_iEndTime := 0
    m_dDurationMillis := 0 }

/-- The constructor `TimeTracer(file, function, lineNumber)`: the member
initialisers, then the body. -/
def construct (g : Statics) (file function : String) (lineNumber : Int) (now : Int)
    (longId : Nat) : Statics × TimeTracer :=
  let t := memberInit file function lineNumber
  if g.ms_bIsEnabled then
    let t := initialize_ g t now longId
    (writeBeginEvent g t, t)
  else (g, t)

/-- The destructor `~TimeTracer()`. -/
def destruct (g : Statics) (t : TimeTracer) (now : Int) : Statics × TimeTracer :=
  if g.ms_bIsEnabled && t.m_bIsInitialized then
    let t := registerFinalTime g t now
    let g := writeEndEvent g t
    if t.m_bPrintToTerminal then
      let t := calculateDuration t
      (printDurationMiliSec g t, t)
    else (g, t)
  else (g, t)

end TimeTracer

/-! ## Programs: sequences of calls -/

/-- One call a program makes on the tracer. Objects are named by the order of their
construction, counted from zero. -/
inductive Call where
  | enable (jsonFileName : String) (osOk : Bool) (now : Int)
  | disable
  | construct (file function : String) (lineNumber : Int) (now : Int) (longId : Nat)
  | setPrintToTerminal (obj : Nat) (s : Bool)
  | destruct (obj : Nat) (now : Int)
  | traceQuantity (name : String) (val : Int) (now : Int)
deriving DecidableEq, Repr

/-- Whether the call is `enable` or `disable`. -/
def Call.toggles : Call → Bool
  | .enable _ _ _ => true
  | .disable => true
  | _ => false

/-- Whether the call is `enable`. -/
def Call.isEnable : Call → Bool
  | .enable _ _ _ => true
  | _ => false

/-- Whether the call destroys object `i`. -/
def Call.destroys : Call → Nat → Bool
  | .destruct obj _, i => obj == i
  | _, _ => false

/-- The static state and the objects constructed so far (`none` once destroyed). -/
structure World where
  statics : Statics
  objects : List (Option TimeTracer)
deriving DecidableEq, Repr

/-- Program start: the static initialisers have run, no object exists. -/
def World.init : World := { statics := Statics.init, objects := [] }

/-- The effect of one call. A call on an object that does not exist (any more) is not
a call a program can make and leaves the world as it is. -/
def step (w : World) : Call → World
  | .enable jsonFileName osOk now => { w with statics := enable w.statics jsonFileName osOk now }
  | .disable => { w with statics := disable w.statics }
  | .construct file function lineNumber now longId =>
    let r := TimeTracer.construct w.statics file function lineNumber now longId
    { statics := r.1, objects := w.objects ++ [some r.2] }
  | .setPrintToTerminal obj s =>
    match w.objects.getD obj none with
    | some t => { w with objects := w.objects.set obj (some (t.setPrintToTerminal s)) }
    | none => w
  | .destruct obj now =>
    match w.objects.getD obj none with
    | some t => { statics := (TimeTracer.destruct w.statics t now).1, objects := w.objects.set obj none }
    | none => w
  | .traceQuantity name val now => { w with statics := traceQuantity w.statics name val now }

/-- The effect of a sequence of calls, first call first. -/
def run (w : World) (cs : List Call) : World := cs.foldl step w

/-- The worlds a program can reach from program start. -/
def Reachable (w : World) : Prop := ∃ cs : List Call, run World.init cs = w

/-- The bytes in the file the stream is, or was last, attached to. -/
def World.file (w : World) : String := w.statics.ms_OutputFileStream.content

/-! ## The wire format, as the specification words it -/

/-- The header of the trace file. -/
def headerText : String := "\x7b\"displayTimeUnit\": \"ms\",\"traceEvents\":[\n"

/-- The footer of the trace file. -/
def footerText : String := "]\x7d"

/-- The Begin/End record up to the opening quote of its file path, for function name
`fn`, phase `ph`, timestamp `ts` and thread id `tid`. -/
def eventUpToFile (fn ph : String) (ts : Int) (tid : String) : String :=
  "\x7b\"name\":\"" ++ fn ++ "\",\"cat\":\"bst\",\"ph\":\"" ++ ph ++ "\",\"ts\":" ++ to_string ts ++
    ",\"pid\":1,\"tid\":" ++ tid ++ ",\"args\":\x7b\"file path\":\""

/-- The Begin/End record of the trace file format, newline included. -/
def eventRecord (fn ph : String) (ts : Int) (tid file : String) (line : Int) : String :=
  eventUpToFile fn ph ts tid ++ file ++ "\",\"line number\":" ++ to_string line ++ "\x7d\x7d\n"

/-- The Counter record up to the opening quote of its argument key. -/
def counterUpToKey (name : String) (ts : Int) : String :=
  "\x7b\"name\":\"" ++ name ++ "\",\"ph\":\"C\",\"ts\":" ++ to_string ts ++
    ",\"pid\":1,\"tid\":1,\"args\":\x7b\""

/-- The Counter record of the trace file format, newline included. -/
def counterRecord (name : String) (ts val : Int) : String :=
  counterUpToKey name ts ++ name ++ "\":" ++ to_string val ++ "\x7d\x7d\n"

/-- The trace file the specification asks for: header, the records separated by one
comma each, footer. -/
def specTraceFile (records : List String) : String :=
  headerText ++ ",".intercalate records ++ footerText

/-- The escaping the specification asks for on a file path: every backslash is
replaced by two, every other character is kept. -/
def escapeBackslashes : List Char → List Char
  | [] => []
  | c :: cs => if c = '\\' then '\\' :: '\\' :: escapeBackslashes cs else c :: escapeBackslashes cs

/-- The text on standard output that a sequence of inserted values makes, `fmt`
being the way the stream prints the `double` that is `micros * 0.001`. -/
def renderCout (fmt : Int → String) : List CoutItem → String
  | [] => ""
  | .text s :: rest => s ++ renderCout fmt rest
  | .millis micros :: rest => fmt micros ++ renderCout fmt rest

/-- The decimal representation of a natural number, most significant digit first,
with no leading zero: `0` is written `0`. -/
def decimalDigits (n : Nat) : List Char :=
  if n = 0 then ['0'] else (Nat.digits 10 n).reverse.map Nat.digitChar

/-- The clock reading a call comes with, if it has one. -/
def Call.reading : Call → Option Int
  | .enable _ _ now => some now
  | .construct _ _ _ now _ => some now
  | .destruct _ now => some now
  | .traceQuantity _ _ now => some now
  | _ => none

/-- The clock reading of the most recent `enable` call of a history, first call
first. -/
def lastEnableReading : List Call → Option Int
  | [] => none
  | c :: cs =>
    match lastEnableReading cs with
    | some z => some z
    | none => if c.isEnable then c.reading else none

/-- The clock is monotonic along the calls: no reading is smaller than an earlier one. -/
def MonotonicClock (cs : List Call) : Prop :=
  (cs.filterMap Call.reading).Pairwise (fun a b => a ≤ b)

/-- The text is one record of the trace format with timestamp `ts`: a Begin or End
record, with or without the separating comma in front, or a Counter record. -/
def IsRecordStamped (txt : String) (ts : Int) : Prop :=
  (∃ (comma fn ph tid file : String) (line : Int),
      (comma = "" ∨ comma = ",") ∧ (ph = "B" ∨ ph = "E") ∧
        txt = comma ++ eventRecord fn ph ts tid file line)
  ∨ ∃ (name : String) (val : Int), txt = counterRecord name ts val

/-- Whether the call constructs a timer. -/
def Call.isConstruct : Call → Bool
  | .construct _ _ _ _ _ => true
  | _ => false

/-- Whether the calls are constructions and destructions only, every destruction
naming a timer that is alive at that point and no timer being left alive at the end;
`n` objects exist before the calls and those named in `live` are alive. -/
def timersBracketed : Nat → List Nat → List Call → Bool
  | _, live, [] => live.isEmpty
  | n, live, .construct _ _ _ _ _ :: cs => timersBracketed (n + 1) (n :: live) cs
  | n, live, .destruct obj _ :: cs => live.contains obj && timersBracketed n (live.erase obj) cs
  | _, _, _ :: _ => false

/-- The record a construction or destruction stands for in world `w`, without
separator: the Begin record of the object constructed, the End record of the object
destroyed. -/
def recordOf (w : World) : Call → Option String
  | .construct file function lineNumber now longId =>
    some (eventRecord
      (TimeTracer.construct w.statics file function lineNumber now longId).2.m_sFunctionName "B"
      (TimeTracer.construct w.statics file function lineNumber now longId).2.m_iBeginTime
      (TimeTracer.construct w.statics file function lineNumber now longId).2.m_iThreadId
      (TimeTracer.construct w.statics file function lineNumber now longId).2.m_sFileName
      (TimeTracer.construct w.statics file function lineNumber now longId).2.m_iLineNumber)
  | .destruct obj now =>
    match w.objects.getD obj none with
    | some t => some (eventRecord t.m_sFunctionName "E" (now - w.statics.ms_iZeroTime)
        t.m_iThreadId t.m_sFileName t.m_iLineNumber)
    | none => none
  | _ => none

/-- The records of the constructions and destructions among the calls made from world
`w` on, in the order of the calls. -/
def recordsOf (w : World) : List Call → List String
  | [] => []
  | c :: cs => (recordOf w c).toList ++ recordsOf (step w c) cs

/-- A session in good order: tracing enabled, the stream attached and free of error
flags, `n` objects so far, those named in `live` alive and initialized, and the file
made of the header and the records `acc` with one comma between neighbours, the
first-event flag telling whether there is a record yet. -/
structure SessionInv (w : World) (n : Nat) (live : List Nat) (acc : List String) : Prop where
  enabled : w.statics.ms_bIsEnabled = true
  is_open : w.statics.ms_OutputFileStream.is_open = true
  good : w.statics.ms_OutputFileStream.good = true
  len : w.objects.length = n
  live_ok : ∀ i ∈ live, i < n ∧
    ∃ t : TimeTracer, w.objects.getD i none = some t ∧ t.m_bIsInitialized = true
  nodup : live.Nodup
  file : w.file = headerText ++ ",".intercalate acc
  first : w.statics.ms_bIsFirstEvent = acc.isEmpty
  live_acc : live ≠ [] → acc ≠ []

/-- No backslash stands among the two characters that follow a backslash. -/
def backslashesApart : List Char → Bool
  | [] => true
  | c :: cs => (c != '\\' || (cs.take 2).all (fun d => d != '\\')) && backslashesApart cs

/-! ## Properties of the static state used in the proofs -/

/-- State `g2` differs from `g1` at most by text appended to the file, values inserted into
`std::cout` and the first-event flag. -/
structure Appends (g1 g2 : Statics) : Prop where
  enabled : g2.ms_bIsEnabled = g1.ms_bIsEnabled
  is_open : g2.ms_OutputFileStream.is_open = g1.ms_OutputFileStream.is_open
  good : g2.ms_OutputFileStream.good = g1.ms_OutputFileStream.good
  zero : g2.ms_iZeroTime = g1.ms_iZeroTime
  content : ∃ txt : String,
    g2.ms_OutputFileStream.content = g1.ms_OutputFileStream.content ++ txt

/-- The stream is attached exactly when tracing is enabled. -/
def EnabledIffOpen (g : Statics) : Prop :=
  g.ms_bIsEnabled = g.ms_OutputFileStream.is_open

/-! ## What each operation does to the static state -/

theorem writeToFile_enabled (g : Statics) (str : String) :
    (writeToFile g str).ms_bIsEnabled = g.ms_bIsEnabled := by
  unfold writeToFile; split <;> rfl

theorem writeToFile_first (g : Statics) (str : String) :
    (writeToFile g str).ms_bIsFirstEvent = g.ms_bIsFirstEvent := by
  unfold writeToFile; split <;> rfl

theorem writeToFile_zero (g : Statics) (str : String) :
    (writeToFile g str).ms_iZeroTime = g.ms_iZeroTime := by
  unfold writeToFile; split <;> rfl

theorem writeToFile_cout (g : Statics) (str : String) :
    (writeToFile g str).cout = g.cout := by
  unfold writeToFile; split <;> rfl

theorem writeToFile_is_open (g : Statics) (str : String) :
    (writeToFile g str).ms_OutputFileStream.is_open = g.ms_OutputFileStream.is_open := by
  cases ho : g.ms_OutputFileStream.is_open <;> cases hg : g.ms_OutputFileStream.good <;>
    simp [writeToFile, OFStream.put, ho, hg]

theorem writeToFile_good (g : Statics) (str : String) :
    (writeToFile g str).ms_OutputFileStream.good = g.ms_OutputFileStream.good := by
  cases ho : g.ms_OutputFileStream.is_open <;> cases hg : g.ms_OutputFileStream.good <;>
    simp [writeToFile, OFStream.put, ho, hg]

/-- With no file attached `writeToFile` changes nothing at all. -/
theorem writeToFile_closed (g : Statics) (str : String)
    (h : g.ms_OutputFileStream.is_open = false) : writeToFile g str = g := by
  unfold writeToFile; simp [h]

/-- On an attached stream without error flag `writeToFile` appends the text. -/
theorem writeToFile_content (g : Statics) (str : String)
    (ho : g.ms_OutputFileStream.is_open = true) (hg : g.ms_OutputFileStream.good = true) :
    (writeToFile g str).ms_OutputFileStream.content = g.ms_OutputFileStream.content ++ str := by
  unfold writeToFile OFStream.put; simp [ho, hg]

/-- On a stream with an error flag `writeToFile` changes nothing. -/
theorem writeToFile_bad (g : Statics) (str : String)
    (hg : g.ms_OutputFileStream.good = false) : writeToFile g str = g := by
  unfold writeToFile OFStream.put
  split
  · simp [hg]
  · rfl

theorem enabledIffOpen_init : EnabledIffOpen Statics.init := rfl

theorem enabledIffOpen_writeToFile (g : Statics) (str : String) (h : EnabledIffOpen g) :
    EnabledIffOpen (writeToFile g str) := by
  unfold EnabledIffOpen at *
  rw [writeToFile_enabled, writeToFile_is_open]; exact h

theorem enabledIffOpen_enable (g : Statics) (jsonFileName : String) (osOk : Bool) (now : Int)
    (h : EnabledIffOpen g) : EnabledIffOpen (enable g jsonFileName osOk now) := by
  unfold EnabledIffOpen at *
  cases ho : g.ms_OutputFileStream.is_open <;> cases osOk <;>
    cases hg : g.ms_OutputFileStream.good <;>
    simp [enable, writeHeader, writeToFile, OFStream.open_, OFStream.put, setZeroTime, ho, hg, h]

theorem enabledIffOpen_disable (g : Statics) (h : EnabledIffOpen g) :
    EnabledIffOpen (disable g) := by
  unfold EnabledIffOpen at *
  unfold disable
  split
  · next he =>
    have ho : (writeFooter g).ms_OutputFileStream.is_open = true := by
      unfold writeFooter; rw [writeToFile_is_open, ← h, he]
    simp [OFStream.close, OFStream.flush, ho]
  · exact h

theorem Appends.refl (g : Statics) : Appends g g :=
  ⟨rfl, rfl, rfl, rfl, "", by simp⟩

theorem Appends.trans {g1 g2 g3 : Statics} (h12 : Appends g1 g2) (h23 : Appends g2 g3) :
    Appends g1 g3 := by
  obtain ⟨a, ha⟩ := h12.content
  obtain ⟨b, hb⟩ := h23.content
  exact ⟨h23.enabled.trans h12.enabled, h23.is_open.trans h12.is_open,
    h23.good.trans h12.good, h23.zero.trans h12.zero, a ++ b,
    by rw [hb, ha, String.append_assoc]⟩

theorem appends_writeToFile (g : Statics) (str : String) : Appends g (writeToFile g str) := by
  refine ⟨writeToFile_enabled g str, writeToFile_is_open g str, writeToFile_good g str,
    writeToFile_zero g str, ?_⟩
  cases ho : g.ms_OutputFileStream.is_open
  · exact ⟨"", by rw [writeToFile_closed g str ho]; simp⟩
  · cases hg : g.ms_OutputFileStream.good
    · exact ⟨"", by rw [writeToFile_bad g str hg]; simp⟩
    · exact ⟨str, writeToFile_content g str ho hg⟩

theorem appends_traceQuantity (g : Statics) (name : String) (val now : Int) :
    Appends g (traceQuantity g name val now) :=
  appends_writeToFile g _

theorem appends_writeBeginEvent (g : Statics) (t : TimeTracer) :
    Appends g (t.writeBeginEvent g) := by
  have h := appends_writeToFile g (t.beginEventText g)
  exact ⟨h.enabled, h.is_open, h.good, h.zero, h.content⟩

theorem appends_construct (g : Statics) (file function : String) (lineNumber now : Int)
    (longId : Nat) :
    Appends g (TimeTracer.construct g file function lineNumber now longId).1 := by
  unfold TimeTracer.construct
  split
  · exact appends_writeBeginEvent g _
  · exact Appends.refl g

theorem appends_destruct (g : Statics) (t : TimeTracer) (now : Int) :
    Appends g (t.destruct g now).1 := by
  unfold TimeTracer.destruct
  split
  · have h := appends_writeToFile g (t.registerFinalTime g now).endEventText
    dsimp only
    split
    · exact ⟨h.enabled, h.is_open, h.good, h.zero, h.content⟩
    · exact h
  · exact Appends.refl g

theorem appends_step (w : World) (c : Call) (hc : c.toggles = false) :
    Appends w.statics (step w c).statics := by
  cases c with
  | enable a b n => simp [Call.toggles] at hc
  | disable => simp [Call.toggles] at hc
  | construct file function lineNumber now longId => exact appends_construct _ _ _ _ _ _
  | setPrintToTerminal obj b =>
    simp only [step]
    split
    · exact Appends.refl _
    · exact Appends.refl _
  | destruct obj now =>
    simp only [step]
    split
    · exact appends_destruct _ _ _
    · exact Appends.refl _
  | traceQuantity name val now => exact appends_traceQuantity _ _ _ _

theorem run_nil (w : World) : run w [] = w := rfl

theorem run_cons (w : World) (c : Call) (cs : List Call) :
    run w (c :: cs) = run (step w c) cs := rfl

theorem run_append (w : World) (cs ds : List Call) :
    run w (cs ++ ds) = run (run w cs) ds := by
  simp [run, List.foldl_append]

theorem appends_run (cs : List Call) :
    ∀ w : World, (∀ c ∈ cs, c.toggles = false) → Appends w.statics (run w cs).statics := by
  induction cs with
  | nil => intro w _; exact Appends.refl _
  | cons c cs ih =>
    intro w h
    rw [run_cons]
    exact (appends_step w c (h c (List.mem_cons_self c cs))).trans
      (ih (step w c) (fun d hd => h d (List.mem_cons_of_mem c hd)))

theorem enabledIffOpen_appends {g1 g2 : Statics} (h : Appends g1 g2)
    (h1 : EnabledIffOpen g1) : EnabledIffOpen g2 := by
  unfold EnabledIffOpen at *
  rw [h.enabled, h.is_open]; exact h1

theorem enabledIffOpen_step (w : World) (c : Call) (h : EnabledIffOpen w.statics) :
    EnabledIffOpen (step w c).statics := by
  cases hc : c.toggles
  · exact enabledIffOpen_appends (appends_step w c hc) h
  · cases c with
    | enable a b n => exact enabledIffOpen_enable _ _ _ _ h
    | disable => exact enabledIffOpen_disable _ h
    | construct file function lineNumber now longId => simp [Call.toggles] at hc
    | setPrintToTerminal obj b => simp [Call.toggles] at hc
    | destruct obj now => simp [Call.toggles] at hc
    | traceQuantity name val now => simp [Call.toggles] at hc

theorem enabledIffOpen_run (cs : List Call) :
    ∀ w : World, EnabledIffOpen w.statics → EnabledIffOpen (run w cs).statics := by
  induction cs with
  | nil => intro w h; exact h
  | cons c cs ih => intro w h; exact ih (step w c) (enabledIffOpen_step w c h)

/-- In every world a program can reach the stream is attached exactly when tracing is
enabled. -/
theorem enabledIffOpen_of_reachable (w : World) (hw : Reachable w) :
    EnabledIffOpen w.statics := by
  obtain ⟨cs, rfl⟩ := hw
  exact enabledIffOpen_run cs World.init enabledIffOpen_init

theorem disable_enabled (g : Statics) : (disable g).ms_bIsEnabled = false := by
  unfold disable
  split
  · rfl
  · next h => simpa using h

theorem disable_of_disabled (g : Statics) (h : g.ms_bIsEnabled = false) : disable g = g := by
  unfold disable; simp [h]

/-- The destructor does nothing unless both the global enabled flag and the
initialized flag of the object are true. -/
theorem destruct_of_not_both (g : Statics) (t : TimeTracer) (now : Int)
    (h : (g.ms_bIsEnabled && t.m_bIsInitialized) = false) : t.destruct g now = (g, t) := by
  unfold TimeTracer.destruct; simp [h]

/-- A call other than `enable` leaves a false enabled flag false. -/
theorem step_keeps_disabled (w : World) (c : Call) (hc : c.isEnable = false)
    (h : w.statics.ms_bIsEnabled = false) : (step w c).statics.ms_bIsEnabled = false := by
  cases c with
  | enable a b n => simp [Call.isEnable] at hc
  | disable => exact disable_enabled _
  | construct file function lineNumber now longId =>
    exact ((appends_step w (.construct file function lineNumber now longId) rfl).enabled).trans h
  | setPrintToTerminal obj b =>
    exact ((appends_step w (.setPrintToTerminal obj b) rfl).enabled).trans h
  | destruct obj now => exact ((appends_step w (.destruct obj now) rfl).enabled).trans h
  | traceQuantity name val now =>
    exact ((appends_step w (.traceQuantity name val now) rfl).enabled).trans h

theorem run_keeps_disabled (cs : List Call) :
    ∀ w : World, (∀ c ∈ cs, c.isEnable = false) → w.statics.ms_bIsEnabled = false →
      (run w cs).statics.ms_bIsEnabled = false := by
  induction cs with
  | nil => intro w _ h; exact h
  | cons c cs ih =>
    intro w hcs h
    rw [run_cons]
    exact ih (step w c) (fun d hd => hcs d (List.mem_cons_of_mem c hd))
      (step_keeps_disabled w c (hcs c (List.mem_cons_self c cs)) h)

/-! ## The loop of `formatFileName` ends before its fuel does -/

theorem findFrom_ge (pat : List Char) (l : List Char) :
    ∀ (i p : Nat), findFrom pat l i = some p → i ≤ p := by
  induction l with
  | nil =>
    intro i p h
    unfold findFrom at h
    split at h
    · simp at h; omega
    · simp at h
  | cons c cs ih =>
    intro i p h
    unfold findFrom at h
    split at h
    · simp at h; omega
    · have := ih (i + 1) p h; omega

theorem findFrom_lt (pat : List Char) (hpat : pat ≠ []) (l : List Char) :
    ∀ (i p : Nat), findFrom pat l i = some p → p < i + l.length := by
  induction l with
  | nil =>
    intro i p h
    unfold findFrom at h
    simp [hpat] at h
  | cons c cs ih =>
    intro i p h
    unfold findFrom at h
    split at h
    · simp at h; simp; omega
    · have := ih (i + 1) p h; simp; omega

theorem std_find_bounds (s pat : List Char) (hpat : pat ≠ []) (pos p : Nat)
    (h : std_find s pat pos = some p) : pos ≤ p ∧ p < s.length := by
  unfold std_find at h
  split at h
  · simp at h
  · next hpos =>
    have h1 := findFrom_ge pat _ pos p h
    have h2 := findFrom_lt pat hpat _ pos p h
    simp at h2
    omega

theorem std_replace_length (s : List Char) (p : Nat) (rep : List Char) (hp : p < s.length) :
    (std_replace s p 1 rep).length = s.length - 1 + rep.length := by
  unfold std_replace
  simp
  omega

/-- One more unit of fuel changes nothing once `length + 1 ≤ start_pos + fuel`: the
loop has left through `npos` before the fuel is used up. -/
theorem formatFileNameLoop_fuel (fuel : Nat) :
    ∀ (s : List Char) (start_pos : Nat), s.length + 1 ≤ start_pos + fuel →
      TimeTracer.formatFileNameLoop (fuel + 1) s start_pos
        = TimeTracer.formatFileNameLoop fuel s start_pos := by
  induction fuel with
  | zero =>
    intro s start_pos h
    have hnone : std_find s "\\".data start_pos = none := by
      unfold std_find; simp; omega
    simp [TimeTracer.formatFileNameLoop, hnone]
  | succ n ih =>
    intro s start_pos h
    rw [TimeTracer.formatFileNameLoop]
    conv => rhs; rw [TimeTracer.formatFileNameLoop]
    dsimp only
    cases hf : std_find s "\\".data start_pos with
    | none => rfl
    | some p =>
      have hb := std_find_bounds s "\\".data (by decide) start_pos p hf
      have hl := std_replace_length s p "\\\\".data hb.2
      apply ih
      rw [hl]
      have : "\\\\".data.length = 2 := by decide
      omega

/-- The result of `formatFileName` is the result of the unbounded loop: any larger
fuel gives the same string. -/
theorem formatFileNameLoop_enough (s : List Char) (k : Nat) :
    TimeTracer.formatFileNameLoop (s.length + 1 + k) s 0
      = TimeTracer.formatFileNameLoop (s.length + 1) s 0 := by
  induction k with
  | zero => rfl
  | succ k ih =>
    rw [← ih]
    exact formatFileNameLoop_fuel (s.length + 1 + k) s 0 (by omega)

/-! ## The text of the records -/

theorem string_append_eq (a b : String) : a.append b = a ++ b := rfl

theorem beginEventText_eq (g : Statics) (t : TimeTracer) :
    t.beginEventText g
      = (if g.ms_bIsFirstEvent then "" else ",") ++
        eventRecord t.m_sFunctionName "B" t.m_iBeginTime t.m_iThreadId t.m_sFileName
          t.m_iLineNumber := by
  apply String.ext
  cases hf : g.ms_bIsFirstEvent <;>
    simp only [TimeTracer.beginEventText, eventRecord, eventUpToFile, hf, string_append_eq,
      String.data_append, List.append_assoc, Bool.not_false, Bool.not_true, if_true,
      Bool.false_eq_true, if_false] <;> rfl

theorem endEventText_eq (t : TimeTracer) :
    t.endEventText
      = "," ++ eventRecord t.m_sFunctionName "E" t.m_iEndTime t.m_iThreadId t.m_sFileName
          t.m_iLineNumber := by
  apply String.ext
  simp only [TimeTracer.endEventText, eventRecord, eventUpToFile, string_append_eq,
    String.data_append, List.append_assoc]
  rfl

theorem traceQuantityText_eq (g : Statics) (name : String) (val now : Int) :
    traceQuantityText g name val now = counterRecord name (now - g.ms_iZeroTime) val := by
  apply String.ext
  simp only [traceQuantityText, counterRecord, counterUpToKey, string_append_eq,
    String.data_append, List.append_assoc]
  rfl

/-! ## Objects across calls -/

theorem setPrintToTerminal_twice (t : TimeTracer) (a b : Bool) :
    (t.setPrintToTerminal a).setPrintToTerminal b = t.setPrintToTerminal b := rfl

theorem setPrintToTerminal_self (t : TimeTracer) :
    t.setPrintToTerminal t.m_bPrintToTerminal = t := rfl

/-- A call that does not destroy object `i` leaves it alive, changed at most in its
print flag. -/
theorem object_step_other (w : World) (c : Call) (i : Nat) (t : TimeTracer) (b : Bool)
    (hi : w.objects.getD i none = some (t.setPrintToTerminal b))
    (hc : c.destroys i = false) :
    ∃ b' : Bool, (step w c).objects.getD i none = some (t.setPrintToTerminal b') := by
  cases c with
  | enable a o n => exact ⟨b, hi⟩
  | disable => exact ⟨b, hi⟩
  | traceQuantity name val now => exact ⟨b, hi⟩
  | construct file function lineNumber now longId =>
    refine ⟨b, ?_⟩
    simp only [step, List.getD_eq_getElem?_getD] at hi ⊢
    have hlt : i < w.objects.length := by
      by_contra hge
      rw [List.getElem?_eq_none (by omega)] at hi
      simp at hi
    rw [List.getElem?_append_left hlt]
    exact hi
  | setPrintToTerminal obj s =>
    simp only [step]
    split
    · next t2 h2 =>
      by_cases hj : obj = i
      · subst hj
        rw [hi] at h2
        injection h2 with h2
        refine ⟨s, ?_⟩
        simp only [List.getD_eq_getElem?_getD] at hi ⊢
        have hlt : obj < w.objects.length := by
          by_contra hge
          rw [List.getElem?_eq_none (by omega)] at hi
          simp at hi
        rw [List.getElem?_set_eq_of_lt _ hlt, ← h2]
        rfl
      · refine ⟨b, ?_⟩
        simp only [List.getD_eq_getElem?_getD] at hi ⊢
        rw [List.getElem?_set_ne hj]
        exact hi
    · exact ⟨b, hi⟩
  | destruct obj now =>
    have hj : obj ≠ i := by
      intro h
      simp [Call.destroys, h] at hc
    simp only [step]
    split
    · refine ⟨b, ?_⟩
      simp only [List.getD_eq_getElem?_getD] at hi ⊢
      rw [List.getElem?_set_ne hj]
      exact hi
    · exact ⟨b, hi⟩

theorem object_run_other (cs : List Call) (i : Nat) (t : TimeTracer) :
    ∀ (w : World) (b : Bool), w.objects.getD i none = some (t.setPrintToTerminal b) →
      (∀ c ∈ cs, c.destroys i = false) →
      ∃ b' : Bool, (run w cs).objects.getD i none = some (t.setPrintToTerminal b') := by
  induction cs with
  | nil => intro w b hi _; exact ⟨b, hi⟩
  | cons c cs ih =>
    intro w b hi hcs
    obtain ⟨b1, h1⟩ := object_step_other w c i t b hi (hcs c (List.mem_cons_self c cs))
    rw [run_cons]
    exact ih (step w c) b1 h1 (fun d hd => hcs d (List.mem_cons_of_mem c hd))

/-! ## Constructor and destructor on an enabled tracer -/

theorem construct_enabled (g : Statics) (file function : String) (lineNumber now : Int)
    (longId : Nat) (hen : g.ms_bIsEnabled = true) :
    TimeTracer.construct g file function lineNumber now longId
      = (TimeTracer.writeBeginEvent g
          (TimeTracer.initialize_ g (TimeTracer.memberInit file function lineNumber) now longId),
         TimeTracer.initialize_ g (TimeTracer.memberInit file function lineNumber) now longId) := by
  unfold TimeTracer.construct; simp [hen]

theorem writeBeginEvent_content (g : Statics) (t : TimeTracer)
    (ho : g.ms_OutputFileStream.is_open = true) (hg : g.ms_OutputFileStream.good = true) :
    (t.writeBeginEvent g).ms_OutputFileStream.content
      = g.ms_OutputFileStream.content ++ t.beginEventText g := by
  unfold TimeTracer.writeBeginEvent
  exact writeToFile_content g _ ho hg

/-- On an enabled tracer whose stream takes writes, destroying an initialized timer
appends its End record, stamped with the reading minus the zero time. -/
theorem destruct_content (g : Statics) (t : TimeTracer) (now : Int)
    (hen : g.ms_bIsEnabled = true) (hinit : t.m_bIsInitialized = true)
    (ho : g.ms_OutputFileStream.is_open = true) (hg : g.ms_OutputFileStream.good = true) :
    (t.destruct g now).1.ms_OutputFileStream.content
      = g.ms_OutputFileStream.content ++
        ("," ++ eventRecord t.m_sFunctionName "E" (now - g.ms_iZeroTime) t.m_iThreadId
          t.m_sFileName t.m_iLineNumber) := by
  have h : (TimeTracer.writeEndEvent g (t.registerFinalTime g now)).ms_OutputFileStream.content
      = g.ms_OutputFileStream.content ++
        ("," ++ eventRecord t.m_sFunctionName "E" (now - g.ms_iZeroTime) t.m_iThreadId
          t.m_sFileName t.m_iLineNumber) := by
    unfold TimeTracer.writeEndEvent
    rw [writeToFile_content g _ ho hg, endEventText_eq]
    rfl
  unfold TimeTracer.destruct
  simp only [hen, hinit, Bool.and_self, if_true]
  split
  · exact h
  · exact h

/-! ## The claims -/

/-- C10. In every world a program can reach from program start by `enable` (whether
the file opens or not), `disable`, constructions, destructions and counter calls, a
`traceQuantity` call made while the enabled flag is false changes nothing: the
stream, the enabled flag, the first-event flag and the zero time stay as they are. -/
theorem C10_traceQuantity_disabled_noop (w : World) (name : String) (val now : Int)
    (hw : Reachable w) (hd : w.statics.ms_bIsEnabled = false) :
    traceQuantity w.statics name val now = w.statics ∧
      step w (.traceQuantity name val now) = w := by
  have ho : w.statics.ms_OutputFileStream.is_open = false := by
    rw [← enabledIffOpen_of_reachable w hw]; exact hd
  have h : traceQuantity w.statics name val now = w.statics :=
    writeToFile_closed _ _ ho
  exact ⟨h, by simp [step, h]⟩

/-- C10 at a world reached by an `enable` whose file did not open and a counter call. -/
theorem C10_traceQuantity_disabled_noop_witness :
    traceQuantity (run World.init [.enable "/no/such/dir/t.json" false 100,
        .traceQuantity "depth" 4 120]).statics "depth" 5 130
      = (run World.init [.enable "/no/such/dir/t.json" false 100,
        .traceQuantity "depth" 4 120]).statics :=
  (C10_traceQuantity_disabled_noop _ "depth" 5 130 ⟨_, rfl⟩ (by decide)).1

/-- C1. A session of two counter samples between a successful `enable` and the
`disable`: the file holds the header, the two Counter records with nothing between
them, and the footer. The second record is not preceded by a comma, so the file is
not the one the trace format asks for. -/
theorem C1_counter_records_lack_separator :
    (run World.init [.enable "t.json" true 100, .traceQuantity "a" 1 101,
        .traceQuantity "b" 2 102, .disable]).file
      = "\x7b\"displayTimeUnit\": \"ms\",\"traceEvents\":[\n\x7b\"name\":\"a\",\"ph\":\"C\",\"ts\":1,\"pid\":1,\"tid\":1,\"args\":\x7b\"a\":1\x7d\x7d\n\x7b\"name\":\"b\",\"ph\":\"C\",\"ts\":2,\"pid\":1,\"tid\":1,\"args\":\x7b\"b\":2\x7d\x7d\n]\x7d"
    ∧ (run World.init [.enable "t.json" true 100, .traceQuantity "a" 1 101,
        .traceQuantity "b" 2 102, .disable]).file
      = headerText ++ counterRecord "a" 1 1 ++ counterRecord "b" 2 2 ++ footerText
    ∧ (run World.init [.enable "t.json" true 100, .traceQuantity "a" 1 101,
        .traceQuantity "b" 2 102, .disable]).file
      ≠ specTraceFile [counterRecord "a" 1 1, counterRecord "b" 2 2] := by
  refine ⟨by rfl, by rfl, ?_⟩
  decide

/-- C3. After `enable`, one scope timer, `disable` and a second successful `enable`,
the first-event flag is still false, and the Begin record of the next timer is
written to the fresh file with a leading comma. -/
theorem C3_first_event_flag_survives_reenable :
    (run World.init [.enable "a.json" true 100, .construct "m.cpp" "f" 7 110 12345,
        .destruct 0 120, .disable, .enable "b.json" true 200]).statics.ms_bIsFirstEvent = false
    ∧ (run World.init [.enable "a.json" true 100, .construct "m.cpp" "f" 7 110 12345,
        .destruct 0 120, .disable, .enable "b.json" true 200]).file = headerText
    ∧ (run World.init [.enable "a.json" true 100, .construct "m.cpp" "f" 7 110 12345,
        .destruct 0 120, .disable, .enable "b.json" true 200,
        .construct "m.cpp" "g" 9 210 12345]).file
      = "\x7b\"displayTimeUnit\": \"ms\",\"traceEvents\":[\n,\x7b\"name\":\"g\",\"cat\":\"bst\",\"ph\":\"B\",\"ts\":10,\"pid\":1,\"tid\":12345,\"args\":\x7b\"file path\":\"m.cpp\",\"line number\":9\x7d\x7d\n" := by
  refine ⟨by rfl, by rfl, by rfl⟩

/-- C2, as the claim states it, fails. A timer is constructed while tracing is
enabled and `disable` is called before it is destroyed: the destructor writes no End
record, the file stays header, Begin record, footer, although the initialized flag of
the timer is true. And the destructor does look at the global flag: on the same
static state and the same timer it appends the End record when the flag is true and
nothing when it is false. -/
theorem C2_no_end_event_after_disable :
    (run World.init [.enable "t.json" true 100, .construct "m.cpp" "f" 7 110 12345,
        .disable]).objects.getD 0 none
      = some { m_bIsInitialized := true, m_bPrintToTerminal := false, m_sFileName := "m.cpp",
               m_sFunctionName := "f", m_iLineNumber := 7, m_iThreadId := "12345",
               m_iBeginTime := 10, m_iEndTime := 0, m_dDurationMillis := 0 }
    ∧ (run World.init [.enable "t.json" true 100, .construct "m.cpp" "f" 7 110 12345,
        .disable, .destruct 0 120]).file
      = "\x7b\"displayTimeUnit\": \"ms\",\"traceEvents\":[\n\x7b\"name\":\"f\",\"cat\":\"bst\",\"ph\":\"B\",\"ts\":10,\"pid\":1,\"tid\":12345,\"args\":\x7b\"file path\":\"m.cpp\",\"line number\":7\x7d\x7d\n]\x7d"
    ∧ ((TimeTracer.construct (enable Statics.init "t.json" true 100) "m.cpp" "f" 7 110 12345).2.destruct
          (TimeTracer.construct (enable Statics.init "t.json" true 100) "m.cpp" "f" 7 110 12345).1
          120).1.ms_OutputFileStream.content
      ≠ ((TimeTracer.construct (enable Statics.init "t.json" true 100) "m.cpp" "f" 7 110 12345).2.destruct
          { (TimeTracer.construct (enable Statics.init "t.json" true 100) "m.cpp" "f" 7 110
              12345).1 with ms_bIsEnabled := false }
          120).1.ms_OutputFileStream.content := by
  refine ⟨by rfl, by rfl, ?_⟩
  decide

/-- C2, amended. Once `disable` has been called, and as long as no `enable` call
follows, destroying any timer leaves the static state unchanged: no End record is
written. In general the destructor acts only when the global enabled flag is true at
destruction time and the initialized flag of the timer is true. -/
theorem C2_destructor_gated_by_both_flags (w : World) (mid : List Call) (obj : Nat)
    (now : Int) (hmid : ∀ c ∈ mid, c.isEnable = false) :
    (step (run (step w .disable) mid) (.destruct obj now)).statics
        = (run (step w .disable) mid).statics
    ∧ ∀ (g : Statics) (t : TimeTracer) (now' : Int),
        (g.ms_bIsEnabled && t.m_bIsInitialized) = false → t.destruct g now' = (g, t) := by
  refine ⟨?_, destruct_of_not_both⟩
  have hd : (run (step w .disable) mid).statics.ms_bIsEnabled = false :=
    run_keeps_disabled mid _ hmid (disable_enabled _)
  have hb : ∀ t : TimeTracer,
      ((run (step w .disable) mid).statics.ms_bIsEnabled && t.m_bIsInitialized) = false := by
    intro t; rw [hd]; rfl
  simp only [step] at hb ⊢
  split
  · next t _ => rw [destruct_of_not_both _ t now (hb t)]
  · rfl

/-- C2, amended, at a timer constructed while enabled and destroyed after `disable`
and a counter call. -/
theorem C2_destructor_gated_by_both_flags_witness :
    (step (run (step (run World.init [.enable "t.json" true 100,
        .construct "m.cpp" "f" 7 110 12345]) .disable) [.traceQuantity "depth" 4 115])
        (.destruct 0 120)).statics
      = (run (step (run World.init [.enable "t.json" true 100,
        .construct "m.cpp" "f" 7 110 12345]) .disable) [.traceQuantity "depth" 4 115]).statics :=
  (C2_destructor_gated_by_both_flags _ [.traceQuantity "depth" 4 115] 0 120
    (by decide)).1

/-- C4. On the call-site file `C:\a\b` (two single backslashes, one character
apart) `formatFileName` doubles the first backslash and steps over the second: the
result is `C:\\a\b`, not the string with every backslash doubled, and the Begin
record carries that path with a single backslash before `b`. Of two adjacent
backslashes, as in `a\\b`, only the first is doubled as well. -/
theorem C4_formatFileName_skips_backslash :
    (TimeTracer.formatFileName (TimeTracer.memberInit "C:\\a\\b" "f" 7)).m_sFileName
      = "C:\\\\a\\b"
    ∧ escapeBackslashes "C:\\a\\b".data = "C:\\\\a\\\\b".data
    ∧ (TimeTracer.formatFileName (TimeTracer.memberInit "C:\\a\\b" "f" 7)).m_sFileName.data
        ≠ escapeBackslashes "C:\\a\\b".data
    ∧ (run World.init [.enable "t.json" true 100,
        .construct "C:\\a\\b" "f" 7 110 12345]).file
      = "\x7b\"displayTimeUnit\": \"ms\",\"traceEvents\":[\n\x7b\"name\":\"f\",\"cat\":\"bst\",\"ph\":\"B\",\"ts\":10,\"pid\":1,\"tid\":12345,\"args\":\x7b\"file path\":\"C:\\\\a\\b\",\"line number\":7\x7d\x7d\n"
    ∧ (TimeTracer.formatFileName (TimeTracer.memberInit "a\\\\b" "f" 7)).m_sFileName
      = "a\\\\\\b"
    ∧ escapeBackslashes "a\\\\b".data = "a\\\\\\\\b".data := by
  refine ⟨by rfl, by rfl, by decide, by rfl, by rfl, by rfl⟩

set_option maxRecDepth 20000 in
/-- C6. A timer constructed while tracing is enabled with the function string
`void __cdecl foo(void)` is recorded under that very string, decoration included:
the constructor never calls `formatFunctionName`, which on this object would give
`void foo(void)`. -/
theorem C6_cdecl_not_stripped :
    (TimeTracer.construct (enable Statics.init "t.json" true 100) "m.cpp"
        "void __cdecl foo(void)" 7 110 12345).2.m_sFunctionName = "void __cdecl foo(void)"
    ∧ (run World.init [.enable "t.json" true 100,
        .construct "m.cpp" "void __cdecl foo(void)" 7 110 12345, .destruct 0 120]).file
      = "\x7b\"displayTimeUnit\": \"ms\",\"traceEvents\":[\n\x7b\"name\":\"void __cdecl foo(void)\",\"cat\":\"bst\",\"ph\":\"B\",\"ts\":10,\"pid\":1,\"tid\":12345,\"args\":\x7b\"file path\":\"m.cpp\",\"line number\":7\x7d\x7d\n,\x7b\"name\":\"void __cdecl foo(void)\",\"cat\":\"bst\",\"ph\":\"E\",\"ts\":20,\"pid\":1,\"tid\":12345,\"args\":\x7b\"file path\":\"m.cpp\",\"line number\":7\x7d\x7d\n"
    ∧ (TimeTracer.formatFunctionName
        (TimeTracer.construct (enable Statics.init "t.json" true 100) "m.cpp"
          "void __cdecl foo(void)" 7 110 12345).2).m_sFunctionName = "void foo(void)" := by
  refine ⟨by rfl, by rfl, by rfl⟩

/-- C9, as the claim states it, fails. After a second `enable` call on an enabled
tracer the enabled flag is true, but the stream carries the error flag of the refused
`open` and takes no more text: the counter call appends nothing. -/
theorem C9_no_record_after_repeated_enable :
    (run World.init [.enable "a.json" true 100,
        .enable "b.json" true 150]).statics.ms_bIsEnabled = true
    ∧ (run World.init [.enable "a.json" true 100, .enable "b.json" true 150,
        .traceQuantity "depth" 4 200]).file
      = (run World.init [.enable "a.json" true 100, .enable "b.json" true 150]).file
    ∧ (run World.init [.enable "a.json" true 100, .enable "b.json" true 150,
        .traceQuantity "depth" 4 200]).file
      = "\x7b\"displayTimeUnit\": \"ms\",\"traceEvents\":[\n" := by
  refine ⟨by rfl, by rfl, by rfl⟩

/-- C9, amended. In a reachable world where tracing is enabled and the stream carries
no error flag, `traceQuantity(name, val)` appends exactly one Counter record to the
file, after everything written before, and changes nothing else: the record names
`name`, has phase `C`, `ts` the clock reading minus the zero time, `pid` 1, `tid` 1
and the single argument `name` with `val` in decimal. -/
theorem C9_counter_record_appended (w : World) (name : String) (val now : Int)
    (hw : Reachable w) (hen : w.statics.ms_bIsEnabled = true)
    (hgood : w.statics.ms_OutputFileStream.good = true) :
    step w (.traceQuantity name val now)
      = { w with statics := { w.statics with ms_OutputFileStream :=
            { w.statics.ms_OutputFileStream with content :=
                w.file ++ ("\x7b\"name\":\"" ++ name ++ "\",\"ph\":\"C\",\"ts\":" ++
                  to_string (now - w.statics.ms_iZeroTime) ++ ",\"pid\":1,\"tid\":1,\"args\":\x7b\"" ++
                  name ++ "\":" ++ to_string val ++ "\x7d\x7d\n") } } } := by
  have ho : w.statics.ms_OutputFileStream.is_open = true := by
    rw [← enabledIffOpen_of_reachable w hw]; exact hen
  simp only [step, traceQuantity, writeToFile, OFStream.put, ho, hgood, if_true,
    traceQuantityText_eq, counterRecord, counterUpToKey, World.file]

/-- C9, amended, at the sample `("depth", 4)` taken 50 microseconds after `enable`
and at a negative value. -/
theorem C9_counter_record_appended_witness :
    (step (run World.init [.enable "t.json" true 100]) (.traceQuantity "depth" 4 150)).file
      = "\x7b\"displayTimeUnit\": \"ms\",\"traceEvents\":[\n\x7b\"name\":\"depth\",\"ph\":\"C\",\"ts\":50,\"pid\":1,\"tid\":1,\"args\":\x7b\"depth\":4\x7d\x7d\n"
    ∧ (step (run World.init [.enable "t.json" true 100]) (.traceQuantity "depth" (-4) 150)).file
      = "\x7b\"displayTimeUnit\": \"ms\",\"traceEvents\":[\n\x7b\"name\":\"depth\",\"ph\":\"C\",\"ts\":50,\"pid\":1,\"tid\":1,\"args\":\x7b\"depth\":-4\x7d\x7d\n" := by
  constructor
  · rw [C9_counter_record_appended _ "depth" 4 150 ⟨_, rfl⟩ (by decide) (by decide)]
    rfl
  · rw [C9_counter_record_appended _ "depth" (-4) 150 ⟨_, rfl⟩ (by decide) (by decide)]
    rfl

/-- C7, as the claim states it, fails. After a second `enable` call on an enabled
tracer the enabled flag is true and a timer constructed then is initialized, but the
stream carries the error flag of the refused `open`: neither its Begin nor its End
record reaches the file, which stays at the header. -/
theorem C7_no_records_after_repeated_enable :
    (run World.init [.enable "a.json" true 100,
        .enable "b.json" true 150]).statics.ms_bIsEnabled = true
    ∧ ((run World.init [.enable "a.json" true 100, .enable "b.json" true 150,
        .construct "m.cpp" "f" 7 160 12345]).objects.getD 0 none).map
          TimeTracer.m_bIsInitialized = some true
    ∧ (run World.init [.enable "a.json" true 100, .enable "b.json" true 150,
        .construct "m.cpp" "f" 7 160 12345, .destruct 0 170]).file
      = "\x7b\"displayTimeUnit\": \"ms\",\"traceEvents\":[\n" := by
  refine ⟨by rfl, by rfl, by rfl⟩

/-- C7, amended. In a reachable world where tracing is enabled and the stream carries
no error flag, a timer is constructed at clock reading `nowB`; calls other than
`enable`, `disable` and the destruction of this timer follow; the timer is destroyed
at reading `nowE ≥ nowB`. Then the construction appends exactly the Begin record of
the timer, the calls in between only append, and the destruction appends exactly a
comma and the End record. Both records carry the function name, file path, line
number and thread id of the one timer object, the Begin stamped `nowB` minus the zero
time and the End `nowE` minus the zero time, which is not smaller. -/
theorem C7_begin_end_pair (w : World) (file function : String) (lineNumber nowB : Int)
    (longId : Nat) (mid : List Call) (nowE : Int)
    (hw : Reachable w) (hen : w.statics.ms_bIsEnabled = true)
    (hgood : w.statics.ms_OutputFileStream.good = true)
    (hmid : ∀ c ∈ mid, c.toggles = false ∧ c.destroys w.objects.length = false)
    (hclock : nowB ≤ nowE) :
    ∃ (t : TimeTracer) (midText : String),
      t = (TimeTracer.construct w.statics file function lineNumber nowB longId).2
      ∧ t.m_sFunctionName = function ∧ t.m_iLineNumber = lineNumber
      ∧ (step w (.construct file function lineNumber nowB longId)).file
        = w.file ++ ((if w.statics.ms_bIsFirstEvent then "" else ",") ++
            eventRecord t.m_sFunctionName "B" (nowB - w.statics.ms_iZeroTime) t.m_iThreadId
              t.m_sFileName t.m_iLineNumber)
      ∧ (run (step w (.construct file function lineNumber nowB longId)) mid).file
        = (step w (.construct file function lineNumber nowB longId)).file ++ midText
      ∧ (step (run (step w (.construct file function lineNumber nowB longId)) mid)
            (.destruct w.objects.length nowE)).file
        = (run (step w (.construct file function lineNumber nowB longId)) mid).file ++
            ("," ++ eventRecord t.m_sFunctionName "E" (nowE - w.statics.ms_iZeroTime)
              t.m_iThreadId t.m_sFileName t.m_iLineNumber)
      ∧ nowB - w.statics.ms_iZeroTime ≤ nowE - w.statics.ms_iZeroTime := by
  have ho : w.statics.ms_OutputFileStream.is_open = true := by
    rw [← enabledIffOpen_of_reachable w hw]; exact hen
  have hc := construct_enabled w.statics file function lineNumber nowB longId hen
  generalize ht : TimeTracer.initialize_ w.statics
    (TimeTracer.memberInit file function lineNumber) nowB longId = t at hc
  have hfn : t.m_sFunctionName = function := by rw [← ht]; rfl
  have hln : t.m_iLineNumber = lineNumber := by rw [← ht]; rfl
  have hbt : t.m_iBeginTime = nowB - w.statics.ms_iZeroTime := by rw [← ht]; rfl
  have hin : t.m_bIsInitialized = true := by rw [← ht]; rfl
  have hw1 : step w (.construct file function lineNumber nowB longId)
      = { statics := t.writeBeginEvent w.statics, objects := w.objects ++ [some t] } := by
    simp only [step, hc]
  have hA1 : Appends w.statics (t.writeBeginEvent w.statics) := appends_writeBeginEvent _ _
  have hA2 := appends_run mid (step w (.construct file function lineNumber nowB longId))
    (fun c hcm => (hmid c hcm).1)
  have hobj1 : (step w (.construct file function lineNumber nowB longId)).objects.getD
      w.objects.length none = some (t.setPrintToTerminal t.m_bPrintToTerminal) := by
    rw [hw1, setPrintToTerminal_self]
    simp only [List.getD_eq_getElem?_getD, List.getElem?_concat_length]
    rfl
  obtain ⟨b, hobj2⟩ := object_run_other mid w.objects.length t _ _ hobj1
    (fun c hcm => (hmid c hcm).2)
  obtain ⟨midText, hmidText⟩ := hA2.content
  refine ⟨t, midText, by rw [hc], hfn, hln, ?_, hmidText, ?_, by omega⟩
  · rw [hw1]
    simp only [World.file]
    rw [writeBeginEvent_content _ _ ho hgood, beginEventText_eq, hbt]
  · generalize run (step w (.construct file function lineNumber nowB longId)) mid = w2
      at hA2 hobj2 hmidText ⊢
    rw [hw1] at hA2
    simp only [step, hobj2, World.file]
    have h2en : w2.statics.ms_bIsEnabled = true := by
      rw [hA2.enabled, hA1.enabled]; exact hen
    have h2o : w2.statics.ms_OutputFileStream.is_open = true := by
      rw [hA2.is_open, hA1.is_open]; exact ho
    have h2g : w2.statics.ms_OutputFileStream.good = true := by
      rw [hA2.good, hA1.good]; exact hgood
    have h2z : w2.statics.ms_iZeroTime = w.statics.ms_iZeroTime := by
      rw [hA2.zero, hA1.zero]
    rw [destruct_content w2.statics (t.setPrintToTerminal b) nowE h2en hin h2o h2g, h2z]
    rfl

/-- C7, amended, at a timer that lives across a counter sample and a second, nested
timer. -/
theorem C7_begin_end_pair_witness :
    ∃ (t : TimeTracer) (midText : String),
      t = (TimeTracer.construct (run World.init [.enable "t.json" true 100]).statics
            "m.cpp" "f" 7 110 12345).2
      ∧ t.m_sFunctionName = "f" ∧ t.m_iLineNumber = 7
      ∧ (step (run World.init [.enable "t.json" true 100])
            (.construct "m.cpp" "f" 7 110 12345)).file
        = (run World.init [.enable "t.json" true 100]).file ++
            ((if (run World.init [.enable "t.json" true 100]).statics.ms_bIsFirstEvent
                then "" else ",") ++
              eventRecord t.m_sFunctionName "B"
                (110 - (run World.init [.enable "t.json" true 100]).statics.ms_iZeroTime)
                t.m_iThreadId t.m_sFileName t.m_iLineNumber)
      ∧ (run (step (run World.init [.enable "t.json" true 100])
            (.construct "m.cpp" "f" 7 110 12345))
            [.traceQuantity "depth" 4 115, .construct "m.cpp" "g" 9 120 12345,
             .destruct 1 130]).file
        = (step (run World.init [.enable "t.json" true 100])
            (.construct "m.cpp" "f" 7 110 12345)).file ++ midText
      ∧ (step (run (step (run World.init [.enable "t.json" true 100])
            (.construct "m.cpp" "f" 7 110 12345))
            [.traceQuantity "depth" 4 115, .construct "m.cpp" "g" 9 120 12345,
             .destruct 1 130])
            (.destruct (run World.init [.enable "t.json" true 100]).objects.length 140)).file
        = (run (step (run World.init [.enable "t.json" true 100])
            (.construct "m.cpp" "f" 7 110 12345))
            [.traceQuantity "depth" 4 115, .construct "m.cpp" "g" 9 120 12345,
             .destruct 1 130]).file ++
            ("," ++ eventRecord t.m_sFunctionName "E"
              (140 - (run World.init [.enable "t.json" true 100]).statics.ms_iZeroTime)
              t.m_iThreadId t.m_sFileName t.m_iLineNumber)
      ∧ (110 : Int) - (run World.init [.enable "t.json" true 100]).statics.ms_iZeroTime
          ≤ 140 - (run World.init [.enable "t.json" true 100]).statics.ms_iZeroTime :=
  C7_begin_end_pair (run World.init [.enable "t.json" true 100]) "m.cpp" "f" 7 110 12345
    [.traceQuantity "depth" 4 115, .construct "m.cpp" "g" 9 120 12345, .destruct 1 130] 140
    ⟨_, rfl⟩ (by decide) (by decide) (by decide) (by decide)

/-! ## A tracer that is not enabled -/

/-- A call other than `enable` leaves the static state of a disabled tracer with no
file attached as it is. -/
theorem step_disabled (w : World) (c : Call) (hc : c.isEnable = false)
    (hen : w.statics.ms_bIsEnabled = false)
    (ho : w.statics.ms_OutputFileStream.is_open = false) :
    (step w c).statics = w.statics := by
  cases c with
  | enable a b n => simp [Call.isEnable] at hc
  | disable => exact disable_of_disabled _ hen
  | construct file function lineNumber now longId =>
    simp [step, TimeTracer.construct, hen]
  | setPrintToTerminal obj b =>
    simp only [step]
    split <;> rfl
  | destruct obj now =>
    simp only [step]
    split
    · next t _ => rw [destruct_of_not_both _ t now (by rw [hen]; rfl)]
    · rfl
  | traceQuantity name val now => exact writeToFile_closed _ _ ho

theorem run_disabled (cs : List Call) :
    ∀ w : World, (∀ c ∈ cs, c.isEnable = false) → w.statics.ms_bIsEnabled = false →
      w.statics.ms_OutputFileStream.is_open = false → (run w cs).statics = w.statics := by
  induction cs with
  | nil => intro w _ _ _; rfl
  | cons c cs ih =>
    intro w hcs hen ho
    have h1 := step_disabled w c (hcs c (List.mem_cons_self c cs)) hen ho
    rw [run_cons, ih (step w c) (fun d hd => hcs d (List.mem_cons_of_mem c hd))
      (by rw [h1]; exact hen) (by rw [h1]; exact ho), h1]

theorem toggles_false_isEnable (c : Call) (h : c.toggles = false) : c.isEnable = false := by
  cases c <;> simp_all [Call.toggles, Call.isEnable]

/-- On a disabled tracer a call other than `enable` makes no initialized object. -/
theorem step_disabled_objects (w : World) (c : Call) (hc : c.isEnable = false)
    (hen : w.statics.ms_bIsEnabled = false)
    (hobj : ∀ t : TimeTracer, some t ∈ w.objects → t.m_bIsInitialized = false) :
    ∀ t : TimeTracer, some t ∈ (step w c).objects → t.m_bIsInitialized = false := by
  cases c with
  | enable a b n => simp [Call.isEnable] at hc
  | disable => exact hobj
  | traceQuantity name val now => exact hobj
  | construct file function lineNumber now longId =>
    intro t ht
    simp only [step, TimeTracer.construct, hen, List.mem_append, List.mem_singleton] at ht
    rcases ht with ht | ht
    · exact hobj t ht
    · simp at ht
      rw [ht]; rfl
  | setPrintToTerminal obj b =>
    intro t ht
    simp only [step] at ht
    split at ht
    · next t2 h2 =>
      have hmem : some t2 ∈ w.objects := by
        simp only [List.getD_eq_getElem?_getD] at h2
        cases hq : w.objects[obj]? with
        | none => rw [hq] at h2; simp at h2
        | some o =>
          rw [hq] at h2
          simp at h2
          rw [← h2]
          exact List.getElem?_mem hq
      rcases List.mem_or_eq_of_mem_set ht with h | h
      · exact hobj t h
      · injection h with h
        rw [h]
        exact hobj t2 hmem
    · exact hobj t ht
  | destruct obj now =>
    intro t ht
    simp only [step] at ht
    split at ht
    · rcases List.mem_or_eq_of_mem_set ht with h | h
      · exact hobj t h
      · simp at h
    · exact hobj t ht

theorem run_disabled_objects (cs : List Call) :
    ∀ w : World, (∀ c ∈ cs, c.isEnable = false) → w.statics.ms_bIsEnabled = false →
      w.statics.ms_OutputFileStream.is_open = false →
      (∀ t : TimeTracer, some t ∈ w.objects → t.m_bIsInitialized = false) →
      ∀ t : TimeTracer, some t ∈ (run w cs).objects → t.m_bIsInitialized = false := by
  induction cs with
  | nil => intro w _ _ _ h; exact h
  | cons c cs ih =>
    intro w hcs hen ho hobj
    have hc := hcs c (List.mem_cons_self c cs)
    have h1 := step_disabled w c hc hen ho
    rw [run_cons]
    exact ih (step w c) (fun d hd => hcs d (List.mem_cons_of_mem c hd))
      (by rw [h1]; exact hen) (by rw [h1]; exact ho)
      (step_disabled_objects w c hc hen hobj)

/-! ## The claims, continued -/

/-- C11. In a reachable world where tracing is disabled, an `enable` call whose file
does not open leaves the enabled flag false and the stream detached, and writes
nothing to the file or to standard output: it only sets the error flag of the stream
and the zero time. After it every sequence of constructions, destructions, counter
calls and print-flag calls leaves the static state exactly as the failed call left
it. -/
theorem C11_failed_enable_is_inert (w : World) (path : String) (now : Int) (cs : List Call)
    (hw : Reachable w) (hd : w.statics.ms_bIsEnabled = false)
    (hcs : ∀ c ∈ cs, c.toggles = false) :
    (step w (.enable path false now)).statics
        = { w.statics with
            ms_OutputFileStream := { w.statics.ms_OutputFileStream with good := false }
            ms_iZeroTime := now }
    ∧ (step w (.enable path false now)).statics.ms_bIsEnabled = false
    ∧ (step w (.enable path false now)).file = w.file
    ∧ (step w (.enable path false now)).statics.cout = w.statics.cout
    ∧ (run (step w (.enable path false now)) cs).statics
        = (step w (.enable path false now)).statics := by
  have ho : w.statics.ms_OutputFileStream.is_open = false := by
    rw [← enabledIffOpen_of_reachable w hw]; exact hd
  have h1 : (step w (.enable path false now)).statics
      = { w.statics with
          ms_OutputFileStream := { w.statics.ms_OutputFileStream with good := false }
          ms_iZeroTime := now } := by
    simp [step, enable, writeHeader, writeToFile, setZeroTime, OFStream.open_, ho, hd]
  refine ⟨h1, by rw [h1]; exact hd, by simp only [World.file]; rw [h1], by rw [h1], ?_⟩
  exact run_disabled cs _ (fun c hc => toggles_false_isEnable c (hcs c hc))
    (by rw [h1]; exact hd) (by rw [h1]; exact ho)

/-- C11 at program start: the file does not open, then a timer is constructed and
destroyed around a counter sample. -/
theorem C11_failed_enable_is_inert_witness :
    (run (step World.init (.enable "/no/such/dir/t.json" false 100))
        [.construct "m.cpp" "f" 7 110 12345, .traceQuantity "depth" 4 120,
         .destruct 0 130]).statics
      = (step World.init (.enable "/no/such/dir/t.json" false 100)).statics :=
  (C11_failed_enable_is_inert World.init "/no/such/dir/t.json" 100
    [.construct "m.cpp" "f" 7 110 12345, .traceQuantity "depth" 4 120, .destruct 0 130]
    ⟨[], rfl⟩ (by decide) (by decide)).2.2.2.2

/-- C12. On a tracer that has never been enabled, every sequence of calls without
`enable`, in particular of constructions, print-flag calls and destructions, leaves
the whole static state at its initial value: nothing is written to the file or to
standard output, and no timer is initialized. -/
theorem C12_never_enabled_is_inert (cs : List Call) (hcs : ∀ c ∈ cs, c.isEnable = false) :
    (run World.init cs).statics = Statics.init
    ∧ (run World.init cs).file = ""
    ∧ (run World.init cs).statics.cout = []
    ∧ ∀ t : TimeTracer, some t ∈ (run World.init cs).objects → t.m_bIsInitialized = false := by
  have h := run_disabled cs World.init hcs rfl rfl
  refine ⟨h, by simp only [World.file]; rw [h]; rfl, by rw [h]; rfl, ?_⟩
  exact run_disabled_objects cs World.init hcs rfl rfl (fun t ht => by simp [World.init] at ht)

/-- C12 at two timers, one of them asked to print, constructed and destroyed. -/
theorem C12_never_enabled_is_inert_witness :
    (run World.init [.construct "m.cpp" "f" 7 110 12345, .setPrintToTerminal 0 true,
        .construct "m.cpp" "g" 9 120 12345, .destruct 1 130, .destruct 0 140]).statics
      = Statics.init :=
  (C12_never_enabled_is_inert [.construct "m.cpp" "f" 7 110 12345,
    .setPrintToTerminal 0 true, .construct "m.cpp" "g" 9 120 12345, .destruct 1 130,
    .destruct 0 140] (by decide)).1

/-- C13, as the claim states it, fails. After a second `enable` call on an enabled
tracer the enabled flag is true, but the stream carries the error flag of the refused
`open`: `disable` closes the file without writing the footer. -/
theorem C13_no_footer_after_repeated_enable :
    (run World.init [.enable "a.json" true 100,
        .enable "b.json" true 150]).statics.ms_bIsEnabled = true
    ∧ (run World.init [.enable "a.json" true 100, .enable "b.json" true 150,
        .disable]).file = "\x7b\"displayTimeUnit\": \"ms\",\"traceEvents\":[\n"
    ∧ (run World.init [.enable "a.json" true 100, .enable "b.json" true 150,
        .disable]).statics.ms_OutputFileStream.is_open = false
    ∧ (run World.init [.enable "a.json" true 100, .enable "b.json" true 150,
        .disable]).statics.ms_bIsEnabled = false := by
  refine ⟨by rfl, by rfl, by rfl, by rfl⟩

/-- C13, amended. In a reachable world `disable` changes nothing when tracing is
disabled. When tracing is enabled it closes the stream and sets the enabled flag to
false, leaving the first-event flag, the zero time and standard output as they are;
it appends exactly the footer when the stream carries no error flag and appends
nothing when it carries one. In every case a second `disable` changes nothing
more. -/
theorem C13_disable_effect (w : World) (hw : Reachable w) :
    (w.statics.ms_bIsEnabled = false → disable w.statics = w.statics)
    ∧ (w.statics.ms_bIsEnabled = true → w.statics.ms_OutputFileStream.good = true →
        disable w.statics
          = { w.statics with
              ms_bIsEnabled := false
              ms_OutputFileStream :=
                { w.statics.ms_OutputFileStream with
                  is_open := false
                  content := w.statics.ms_OutputFileStream.content ++ "]\x7d" } })
    ∧ (w.statics.ms_bIsEnabled = true → w.statics.ms_OutputFileStream.good = false →
        disable w.statics
          = { w.statics with
              ms_bIsEnabled := false
              ms_OutputFileStream := { w.statics.ms_OutputFileStream with is_open := false } })
    ∧ disable (disable w.statics) = disable w.statics := by
  have hinv := enabledIffOpen_of_reachable w hw
  unfold EnabledIffOpen at hinv
  refine ⟨disable_of_disabled _, ?_, ?_, disable_of_disabled _ (disable_enabled _)⟩
  · intro hen hg
    have ho : w.statics.ms_OutputFileStream.is_open = true := by rw [← hinv]; exact hen
    simp [disable, writeFooter, writeToFile, OFStream.put, OFStream.flush, OFStream.close,
      hen, hg, ho]
  · intro hen hg
    have ho : w.statics.ms_OutputFileStream.is_open = true := by rw [← hinv]; exact hen
    simp [disable, writeFooter, writeToFile, OFStream.put, OFStream.flush, OFStream.close,
      hen, hg, ho]

/-- C13, amended, at the end of a session with one timer: the file ends with the
footer. -/
theorem C13_disable_effect_witness :
    (disable (run World.init [.enable "t.json" true 100, .construct "m.cpp" "f" 7 110 12345,
        .destruct 0 120]).statics).ms_OutputFileStream.content
      = (run World.init [.enable "t.json" true 100, .construct "m.cpp" "f" 7 110 12345,
        .destruct 0 120]).file ++ "]\x7d" := by
  rw [(C13_disable_effect (run World.init [.enable "t.json" true 100,
    .construct "m.cpp" "f" 7 110 12345, .destruct 0 120]) ⟨_, rfl⟩).2.1 (by decide) (by decide)]
  rfl

/-- C14. At program start tracing is disabled and no file is attached, and in every
world reached from there by `enable` (whether the file opens or not), `disable`,
constructions, destructions and counter calls, an enabled flag that is true means the
stream has a file attached. -/
theorem C14_enabled_implies_open (w : World) (hw : Reachable w)
    (hen : w.statics.ms_bIsEnabled = true) :
    w.statics.ms_OutputFileStream.is_open = true
    ∧ World.init.statics.ms_bIsEnabled = false
    ∧ World.init.statics.ms_OutputFileStream.is_open = false := by
  refine ⟨?_, rfl, rfl⟩
  rw [← enabledIffOpen_of_reachable w hw]; exact hen

/-- C14 at a world reached through a failed `enable`, a successful one and a repeated
one. -/
theorem C14_enabled_implies_open_witness :
    (run World.init [.enable "/no/such/dir/t.json" false 90, .enable "a.json" true 100,
        .enable "b.json" true 150]).statics.ms_OutputFileStream.is_open = true :=
  (C14_enabled_implies_open _ ⟨_, rfl⟩ (by decide)).1

/-- C16, as the claim states it, fails. A timer in `m.cpp`, function `f`, is
constructed while tracing is enabled, asked to print and destroyed 2500 microseconds
later, tracing still enabled: the values put on standard output start with the text
`Scope: `, so however the duration is formatted the line begins with `Scope: m.cpp`
and not with the file string. -/
theorem C16_line_starts_with_scope :
    (run World.init [.enable "t.json" true 100, .construct "m.cpp" "f" 7 110 12345,
        .setPrintToTerminal 0 true, .destruct 0 2610]).statics.cout
      = [.text "Scope: ", .text "m.cpp", .text " - ", .text "f", .text " DurationMs: ",
         .millis 2500, .text "ms.\n"]
    ∧ (∀ fmt : Int → String,
        renderCout fmt (run World.init [.enable "t.json" true 100,
          .construct "m.cpp" "f" 7 110 12345, .setPrintToTerminal 0 true,
          .destruct 0 2610]).statics.cout
          = "Scope: m.cpp - f DurationMs: " ++ (fmt 2500 ++ "ms.\n"))
    ∧ (∀ fmt : Int → String,
        renderCout fmt (run World.init [.enable "t.json" true 100,
          .construct "m.cpp" "f" 7 110 12345, .setPrintToTerminal 0 true,
          .destruct 0 2610]).statics.cout
          ≠ "m.cpp - f DurationMs: " ++ (fmt 2500 ++ "ms.\n")) := by
  have hc : (run World.init [.enable "t.json" true 100, .construct "m.cpp" "f" 7 110 12345,
        .setPrintToTerminal 0 true, .destruct 0 2610]).statics.cout
      = [.text "Scope: ", .text "m.cpp", .text " - ", .text "f", .text " DurationMs: ",
         .millis 2500, .text "ms.\n"] := by rfl
  have hr : ∀ fmt : Int → String,
      renderCout fmt [.text "Scope: ", .text "m.cpp", .text " - ", .text "f",
        .text " DurationMs: ", .millis 2500, .text "ms.\n"]
        = "Scope: m.cpp - f DurationMs: " ++ (fmt 2500 ++ "ms.\n") := by
    intro fmt
    apply String.ext
    simp only [renderCout, String.data_append, List.append_assoc]
    rfl
  refine ⟨hc, fun fmt => by rw [hc]; exact hr fmt, fun fmt => ?_⟩
  rw [hc, hr fmt]
  intro h
  have hd := congrArg String.data h
  simp only [String.data_append] at hd
  have hh := congrArg List.head? hd
  simp at hh

/-- C16, amended. When a timer that is initialized and has its print flag set is
destroyed while tracing is enabled, standard output gains exactly the text `Scope: `,
the file string of the timer (as `formatFileName` left it), ` - `, the function
string, ` DurationMs: `, the duration (end time minus begin time, in microseconds,
printed as milliseconds) and `ms.` with a newline. -/
theorem C16_print_line (g : Statics) (t : TimeTracer) (now : Int)
    (hen : g.ms_bIsEnabled = true) (hinit : t.m_bIsInitialized = true)
    (hp : t.m_bPrintToTerminal = true) :
    (t.destruct g now).1.cout
        = g.cout ++ [.text "Scope: ", .text t.m_sFileName, .text " - ",
            .text t.m_sFunctionName, .text " DurationMs: ",
            .millis (now - g.ms_iZeroTime - t.m_iBeginTime), .text "ms.\n"]
    ∧ ∀ fmt : Int → String,
        renderCout fmt [.text "Scope: ", .text t.m_sFileName, .text " - ",
            .text t.m_sFunctionName, .text " DurationMs: ",
            .millis (now - g.ms_iZeroTime - t.m_iBeginTime), .text "ms.\n"]
          = "Scope: " ++ t.m_sFileName ++ " - " ++ t.m_sFunctionName ++ " DurationMs: " ++
              fmt (now - g.ms_iZeroTime - t.m_iBeginTime) ++ "ms.\n" := by
  constructor
  · simp only [TimeTracer.destruct, hen, hinit, Bool.and_self, if_true,
      TimeTracer.registerFinalTime, hp, TimeTracer.printDurationMiliSec,
      TimeTracer.calculateDuration, TimeTracer.writeEndEvent, writeToFile_cout]
  · intro fmt
    apply String.ext
    simp only [renderCout, String.data_append, List.append_assoc]
    rfl

/-- C16, amended, at the timer of the counterexample. -/
theorem C16_print_line_witness :
    ((TimeTracer.destruct (enable Statics.init "t.json" true 100)
        ((TimeTracer.construct (enable Statics.init "t.json" true 100) "m.cpp" "f" 7 110
          12345).2.setPrintToTerminal true) 2610).1.cout)
      = (enable Statics.init "t.json" true 100).cout ++
          [.text "Scope: ", .text "m.cpp", .text " - ", .text "f", .text " DurationMs: ",
           .millis 2500, .text "ms.\n"] :=
  (C16_print_line (enable Statics.init "t.json" true 100)
    ((TimeTracer.construct (enable Statics.init "t.json" true 100) "m.cpp" "f" 7 110
      12345).2.setPrintToTerminal true) 2610 (by decide) (by decide) (by decide)).1

/-! ## What `std::to_string` prints for an unsigned value -/

theorem toDigitsCore_eq_digits (fuel : Nat) :
    ∀ (m : Nat) (ds : List Char), 0 < m → m < fuel →
      Nat.toDigitsCore 10 fuel m ds = (Nat.digits 10 m).reverse.map Nat.digitChar ++ ds := by
  induction fuel with
  | zero => intro m ds _ h; omega
  | succ fuel ih =>
    intro m ds hm hlt
    rw [Nat.digits_def' (by decide) hm]
    unfold Nat.toDigitsCore
    by_cases hq : m / 10 = 0
    · simp [hq]
    · have hq' : 0 < m / 10 := Nat.pos_of_ne_zero hq
      have hlt' : m / 10 < fuel := by omega
      simp only [hq, if_false]
      rw [ih (m / 10) _ hq' hlt']
      simp

/-- The text `toString` gives for a natural number is its decimal representation. -/
theorem toString_data_eq_decimalDigits (n : Nat) : (toString n).data = decimalDigits n := by
  show (Nat.toDigits 10 n) = decimalDigits n
  unfold decimalDigits Nat.toDigits
  by_cases hn : n = 0
  · subst hn; rfl
  · rw [if_neg hn, toDigitsCore_eq_digits (n + 1) n [] (Nat.pos_of_ne_zero hn) (by omega)]
    simp

theorem digitChar_isDigit : ∀ d : Nat, d < 10 → (Nat.digitChar d).isDigit = true := by
  decide

theorem digitChar_eq_zero : ∀ d : Nat, d < 10 → Nat.digitChar d = '0' → d = 0 := by
  decide

theorem decimalDigits_ne_nil (n : Nat) : decimalDigits n ≠ [] := by
  unfold decimalDigits
  by_cases hn : n = 0
  · simp [hn]
  · simp [hn, Nat.digits_ne_nil_iff_ne_zero]

theorem decimalDigits_isDigit (n : Nat) : ∀ c ∈ decimalDigits n, c.isDigit = true := by
  unfold decimalDigits
  by_cases hn : n = 0
  · simp [hn]
  · intro c hc
    simp only [if_neg hn, List.mem_map, List.mem_reverse] at hc
    obtain ⟨d, hd, rfl⟩ := hc
    exact digitChar_isDigit d (Nat.digits_lt_base (by decide) hd)

/-- Only the representation of zero starts with the digit zero. -/
theorem decimalDigits_head (n : Nat) (h : (decimalDigits n).head? = some '0') : n = 0 := by
  by_contra hn
  unfold decimalDigits at h
  rw [if_neg hn] at h
  have hne : Nat.digits 10 n ≠ [] := Nat.digits_ne_nil_iff_ne_zero.mpr hn
  have hlast := Nat.getLast_digit_ne_zero 10 hn
  have hlt := Nat.digits_lt_base (b := 10) (m := n) (by decide)
    (List.getLast_mem hne)
  rw [List.head?_map, List.head?_reverse, List.getLast?_eq_getLast _ hne] at h
  simp only [Option.map_some', Option.some.injEq] at h
  exact hlast (digitChar_eq_zero _ hlt h)

/-- C19. The thread id string of a timer constructed while tracing is enabled, the one
its Begin and End records carry, is the first five characters (all of them when there
are fewer) of the decimal representation of the hash `h`: it is not empty, has at most
five characters, all of them decimal digits, and starts with the digit zero only when
it is the string `0`. -/
theorem C19_thread_id_text (g : Statics) (file function : String) (lineNumber now : Int)
    (h : Nat) (hen : g.ms_bIsEnabled = true) :
    (TimeTracer.construct g file function lineNumber now h).2.m_iThreadId.data
        = (decimalDigits h).take 5
    ∧ (TimeTracer.construct g file function lineNumber now h).2.m_iThreadId.length
        = min 5 (decimalDigits h).length
    ∧ (TimeTracer.construct g file function lineNumber now h).2.m_iThreadId ≠ ""
    ∧ (TimeTracer.construct g file function lineNumber now h).2.m_iThreadId.length ≤ 5
    ∧ (∀ c ∈ (TimeTracer.construct g file function lineNumber now h).2.m_iThreadId.data,
        c.isDigit = true)
    ∧ ((TimeTracer.construct g file function lineNumber now h).2.m_iThreadId.data.head?
          = some '0' →
        (TimeTracer.construct g file function lineNumber now h).2.m_iThreadId = "0") := by
  have hc := construct_enabled g file function lineNumber now h hen
  have htid : (TimeTracer.construct g file function lineNumber now h).2.m_iThreadId
      = String.mk ((decimalDigits h).take 5) := by
    rw [hc, ← toString_data_eq_decimalDigits]
    rfl
  rw [htid]
  have hne := decimalDigits_ne_nil h
  refine ⟨rfl, ?_, ?_, ?_, ?_, ?_⟩
  · show ((decimalDigits h).take 5).length = _
    rw [List.length_take]
  · intro he
    have hd := congrArg String.data he
    simp only at hd
    cases hdd : decimalDigits h with
    | nil => exact hne hdd
    | cons c cs => rw [hdd] at hd; simp at hd
  · show ((decimalDigits h).take 5).length ≤ 5
    rw [List.length_take]
    omega
  · intro c hcm
    exact decimalDigits_isDigit h c (List.mem_of_mem_take hcm)
  · intro hh
    have hh' : (decimalDigits h).head? = some '0' := by
      cases hdd : decimalDigits h with
      | nil => exact absurd hdd hne
      | cons c cs => rw [hdd] at hh; simpa using hh
    have h0 := decimalDigits_head h hh'
    subst h0
    rfl

/-- C19 at a hash of nineteen digits and at the hash zero. -/
theorem C19_thread_id_text_witness :
    (TimeTracer.construct (enable Statics.init "t.json" true 100) "m.cpp" "f" 7 110
        1234567890123456789).2.m_iThreadId = "12345"
    ∧ (TimeTracer.construct (enable Statics.init "t.json" true 100) "m.cpp" "f" 7 110
        1234567890123456789).2.m_iThreadId.length ≤ 5
    ∧ (TimeTracer.construct (enable Statics.init "t.json" true 100) "m.cpp" "f" 7 110
        0).2.m_iThreadId = "0" :=
  ⟨by rfl,
   (C19_thread_id_text (enable Statics.init "t.json" true 100) "m.cpp" "f" 7 110
      1234567890123456789 (by decide)).2.2.2.1,
   by rfl⟩

/-! ## Timestamps -/

theorem enable_zero (g : Statics) (jsonFileName : String) (osOk : Bool) (now : Int) :
    (enable g jsonFileName osOk now).ms_iZeroTime = now := by
  unfold enable
  dsimp only
  split <;> rfl

theorem disable_zero (g : Statics) : (disable g).ms_iZeroTime = g.ms_iZeroTime := by
  unfold disable
  split
  · simp only [writeFooter, writeToFile_zero]
  · rfl

theorem lastEnableReading_cons (c : Call) (cs : List Call) :
    lastEnableReading (c :: cs)
      = match lastEnableReading cs with
        | some z => some z
        | none => if c.isEnable then c.reading else none := rfl

/-- The zero time is the reading of the most recent `enable` call, if there was one. -/
theorem zero_run (cs : List Call) :
    ∀ w : World, (run w cs).statics.ms_iZeroTime
      = (lastEnableReading cs).getD w.statics.ms_iZeroTime := by
  induction cs with
  | nil => intro w; rfl
  | cons c cs ih =>
    intro w
    rw [run_cons, ih (step w c), lastEnableReading_cons]
    cases hl : lastEnableReading cs with
    | some z => rfl
    | none =>
      simp only [Option.getD_none]
      cases c with
      | enable a o n => exact enable_zero _ _ _ _
      | disable => exact disable_zero _
      | construct file function lineNumber now longId =>
        exact (appends_step w (.construct file function lineNumber now longId) rfl).zero
      | setPrintToTerminal obj b => exact (appends_step w (.setPrintToTerminal obj b) rfl).zero
      | destruct obj now => exact (appends_step w (.destruct obj now) rfl).zero
      | traceQuantity name val now =>
        exact (appends_step w (.traceQuantity name val now) rfl).zero

theorem lastEnableReading_none (cs : List Call) (h : lastEnableReading cs = none) :
    ∀ c ∈ cs, c.isEnable = false := by
  induction cs with
  | nil => intro c hc; simp at hc
  | cons d ds ih =>
    rw [lastEnableReading_cons] at h
    cases hl : lastEnableReading ds with
    | some z => rw [hl] at h; simp at h
    | none =>
      rw [hl] at h
      intro c hc
      rcases List.mem_cons.mp hc with rfl | hc
      · cases c <;> simp_all [Call.isEnable, Call.reading]
      · exact ih hl c hc

theorem lastEnableReading_mem (cs : List Call) (z : Int) (h : lastEnableReading cs = some z) :
    z ∈ cs.filterMap Call.reading := by
  induction cs with
  | nil => simp [lastEnableReading] at h
  | cons d ds ih =>
    rw [lastEnableReading_cons] at h
    rw [List.filterMap_cons]
    cases hl : lastEnableReading ds with
    | some y =>
      rw [hl] at h
      simp only [Option.some.injEq] at h
      subst h
      have := ih hl
      split
      · exact this
      · exact List.mem_cons_of_mem _ this
    | none =>
      rw [hl] at h
      simp only at h
      split at h
      · rw [h]; exact List.mem_cons_self _ _
      · simp at h

/-- While tracing is enabled some `enable` call lies in the past, and the zero time is
its reading. -/
theorem zero_of_enabled (cs : List Call)
    (hen : (run World.init cs).statics.ms_bIsEnabled = true) :
    ∃ z : Int, lastEnableReading cs = some z ∧ (run World.init cs).statics.ms_iZeroTime = z := by
  cases hl : lastEnableReading cs with
  | none =>
    have := run_keeps_disabled cs World.init (lastEnableReading_none cs hl) rfl
    rw [this] at hen
    simp at hen
  | some z =>
    refine ⟨z, rfl, ?_⟩
    rw [zero_run cs World.init, hl]
    rfl

/-- A call that is neither `enable` nor `disable` leaves the file as it is or, tracing
being enabled, appends one record stamped with its reading minus the zero time. -/
theorem step_writes_record (w : World) (c : Call) (hinv : EnabledIffOpen w.statics)
    (hc : c.toggles = false) :
    (step w c).file = w.file
    ∨ (w.statics.ms_bIsEnabled = true ∧ ∃ (now : Int) (txt : String),
        c.reading = some now ∧ (step w c).file = w.file ++ txt
          ∧ IsRecordStamped txt (now - w.statics.ms_iZeroTime)) := by
  unfold EnabledIffOpen at hinv
  cases hen : w.statics.ms_bIsEnabled with
  | false =>
    left
    have ho : w.statics.ms_OutputFileStream.is_open = false := by rw [← hinv]; exact hen
    simp only [World.file]
    rw [step_disabled w c (toggles_false_isEnable c hc) hen ho]
  | true =>
    have ho : w.statics.ms_OutputFileStream.is_open = true := by rw [← hinv]; exact hen
    cases hg : w.statics.ms_OutputFileStream.good with
    | false =>
      left
      simp only [World.file]
      cases c with
      | enable a o n => simp [Call.toggles] at hc
      | disable => simp [Call.toggles] at hc
      | setPrintToTerminal obj b =>
        simp only [step]
        split <;> rfl
      | construct file function lineNumber now longId =>
        simp only [step, construct_enabled _ _ _ _ _ _ hen, TimeTracer.writeBeginEvent]
        rw [writeToFile_bad _ _ hg]
      | destruct obj now =>
        simp only [step]
        split
        · next t _ =>
          simp only [TimeTracer.destruct]
          split
          · split
            · simp only [TimeTracer.printDurationMiliSec, TimeTracer.writeEndEvent]
              rw [writeToFile_bad _ _ hg]
            · simp only [TimeTracer.writeEndEvent]
              rw [writeToFile_bad _ _ hg]
          · rfl
        · rfl
      | traceQuantity name val now =>
        simp only [step, traceQuantity]
        rw [writeToFile_bad _ _ hg]
    | true =>
      cases c with
      | enable a o n => simp [Call.toggles] at hc
      | disable => simp [Call.toggles] at hc
      | setPrintToTerminal obj b =>
        left
        simp only [step, World.file]
        split <;> rfl
      | construct file function lineNumber now longId =>
        right
        refine ⟨rfl, now,
          (if w.statics.ms_bIsFirstEvent then "" else ",") ++
            eventRecord function "B" (now - w.statics.ms_iZeroTime)
              (TimeTracer.initialize_ w.statics (TimeTracer.memberInit file function lineNumber)
                now longId).m_iThreadId
              (TimeTracer.initialize_ w.statics (TimeTracer.memberInit file function lineNumber)
                now longId).m_sFileName lineNumber, rfl, ?_, ?_⟩
        · simp only [step, construct_enabled _ _ _ _ _ _ hen, World.file]
          rw [writeBeginEvent_content _ _ ho hg, beginEventText_eq]
          rfl
        · left
          refine ⟨_, _, "B", _, _, _, ?_, Or.inl rfl, rfl⟩
          cases w.statics.ms_bIsFirstEvent
          · right; rfl
          · left; rfl
      | destruct obj now =>
        simp only [step]
        split
        · next t _ =>
          cases hin : t.m_bIsInitialized with
          | false =>
            left
            simp only [World.file]
            rw [destruct_of_not_both _ t now (by rw [hin]; simp)]
          | true =>
            right
            refine ⟨trivial, now,
              "," ++ eventRecord t.m_sFunctionName "E" (now - w.statics.ms_iZeroTime)
                t.m_iThreadId t.m_sFileName t.m_iLineNumber, rfl, ?_, ?_⟩
            · simp only [World.file]
              exact destruct_content _ t now hen hin ho hg
            · left
              exact ⟨",", _, "E", _, _, _, Or.inr rfl, Or.inr rfl, rfl⟩
        · left; rfl
      | traceQuantity name val now =>
        right
        refine ⟨rfl, now, counterRecord name (now - w.statics.ms_iZeroTime) val, rfl, ?_, ?_⟩
        · simp only [step, traceQuantity, World.file]
          rw [writeToFile_content _ _ ho hg, traceQuantityText_eq]
        · right
          exact ⟨_, _, rfl⟩

/-- C15. Whenever a construction, a destruction or a counter call changes the file,
what it appends is one record (Begin, End or Counter) whose `ts` is the clock reading
of that call minus the reading of the most recent `enable` call of the history; and
when the clock is monotonic along the history and the call, that `ts` is not
negative. -/
theorem C15_record_timestamps (cs : List Call) (c : Call) (hc : c.toggles = false)
    (hwr : (step (run World.init cs) c).file ≠ (run World.init cs).file) :
    ∃ (now z : Int) (txt : String),
      c.reading = some now ∧ lastEnableReading cs = some z
      ∧ (step (run World.init cs) c).file = (run World.init cs).file ++ txt
      ∧ IsRecordStamped txt (now - z)
      ∧ (MonotonicClock (cs ++ [c]) → 0 ≤ now - z) := by
  have hinv := enabledIffOpen_of_reachable (run World.init cs) ⟨cs, rfl⟩
  rcases step_writes_record (run World.init cs) c hinv hc with h | ⟨hen, now, txt, hr, hf, hs⟩
  · exact absurd h hwr
  · obtain ⟨z, hz, hzero⟩ := zero_of_enabled cs hen
    rw [hzero] at hs
    refine ⟨now, z, txt, hr, hz, hf, hs, ?_⟩
    intro hm
    unfold MonotonicClock at hm
    rw [List.filterMap_append, List.pairwise_append] at hm
    have hz' := lastEnableReading_mem cs z hz
    have := hm.2.2 z hz' now (by simp [hr])
    omega

/-- C15 at a counter sample taken 30 microseconds after `enable`, a timer having been
constructed in between. -/
theorem C15_record_timestamps_witness :
    ∃ (now z : Int) (txt : String),
      (Call.traceQuantity "depth" 4 130).reading = some now
      ∧ lastEnableReading [.enable "t.json" true 100, .construct "m.cpp" "f" 7 110 12345]
          = some z
      ∧ (step (run World.init [.enable "t.json" true 100, .construct "m.cpp" "f" 7 110 12345])
            (.traceQuantity "depth" 4 130)).file
          = (run World.init [.enable "t.json" true 100,
              .construct "m.cpp" "f" 7 110 12345]).file ++ txt
      ∧ IsRecordStamped txt (now - z)
      ∧ (MonotonicClock ([.enable "t.json" true 100, .construct "m.cpp" "f" 7 110 12345] ++
            [.traceQuantity "depth" 4 130]) → 0 ≤ now - z) :=
  C15_record_timestamps [.enable "t.json" true 100, .construct "m.cpp" "f" 7 110 12345]
    (.traceQuantity "depth" 4 130) (by decide) (by decide)

/-! ## A session of timers -/

theorem intercalate_go_append (s : String) (l : List String) :
    ∀ (acc r : String),
      String.intercalate.go acc s (l ++ [r]) = String.intercalate.go acc s l ++ s ++ r := by
  induction l with
  | nil => intro acc r; rfl
  | cons a as ih =>
    intro acc r
    simp only [List.cons_append, String.intercalate.go]
    exact ih _ r

/-- Joining one more record: a comma goes before it unless it is the first. -/
theorem intercalate_append_singleton (s : String) (acc : List String) (r : String) :
    s.intercalate (acc ++ [r])
      = if acc.isEmpty then r else s.intercalate acc ++ s ++ r := by
  cases acc with
  | nil => rfl
  | cons a as =>
    simp only [List.cons_append, String.intercalate, List.isEmpty_cons, Bool.false_eq_true,
      if_false]
    exact intercalate_go_append s as a r

theorem destruct_first (g : Statics) (t : TimeTracer) (now : Int) :
    (t.destruct g now).1.ms_bIsFirstEvent = g.ms_bIsFirstEvent := by
  unfold TimeTracer.destruct
  split
  · dsimp only
    split
    · simp only [TimeTracer.printDurationMiliSec, TimeTracer.writeEndEvent, writeToFile_first]
    · simp only [TimeTracer.writeEndEvent, writeToFile_first]
  · rfl

theorem getD_some_lt {α : Type} (l : List (Option α)) (i : Nat) (a : α)
    (h : l.getD i none = some a) : i < l.length := by
  by_contra hge
  simp only [List.getD_eq_getElem?_getD] at h
  rw [List.getElem?_eq_none (by omega)] at h
  simp at h

/-- A construction keeps a session in good order: the new object is alive and
initialized, and its Begin record joins the records of the file. -/
theorem sessionInv_construct (w : World) (n : Nat) (live : List Nat) (acc : List String)
    (file function : String) (lineNumber now : Int) (longId : Nat)
    (h : SessionInv w n live acc) :
    ∃ r : String, recordOf w (.construct file function lineNumber now longId) = some r
      ∧ SessionInv (step w (.construct file function lineNumber now longId)) (n + 1)
          (n :: live) (acc ++ [r]) := by
  have hc := construct_enabled w.statics file function lineNumber now longId h.enabled
  refine ⟨_, rfl, ?_⟩
  simp only [hc]
  generalize ht : TimeTracer.initialize_ w.statics
    (TimeTracer.memberInit file function lineNumber) now longId = t at hc
  have hin : t.m_bIsInitialized = true := by rw [← ht]; rfl
  have hw1 : step w (.construct file function lineNumber now longId)
      = { statics := t.writeBeginEvent w.statics, objects := w.objects ++ [some t] } := by
    simp only [step, hc]
  have hA := appends_writeBeginEvent w.statics t
  rw [hw1]
  refine ⟨by rw [hA.enabled]; exact h.enabled, by rw [hA.is_open]; exact h.is_open,
    by rw [hA.good]; exact h.good, by simp [h.len], ?_, ?_, ?_, ?_, by simp⟩
  · intro i hi
    rcases List.mem_cons.mp hi with rfl | hi
    · refine ⟨by omega, t, ?_, hin⟩
      simp only [List.getD_eq_getElem?_getD]
      rw [← h.len, List.getElem?_concat_length]
      rfl
    · obtain ⟨hlt, t', ht', hin'⟩ := h.live_ok i hi
      refine ⟨by omega, t', ?_, hin'⟩
      simp only [List.getD_eq_getElem?_getD] at ht' ⊢
      rw [List.getElem?_append_left (by rw [h.len]; exact hlt)]
      exact ht'
  · refine List.nodup_cons.mpr ⟨?_, h.nodup⟩
    intro hn
    have := (h.live_ok n hn).1
    omega
  · simp only [World.file]
    rw [writeBeginEvent_content _ _ h.is_open h.good, beginEventText_eq,
      intercalate_append_singleton]
    have hf := h.file
    simp only [World.file] at hf
    rw [hf, h.first]
    cases acc with
    | nil =>
      apply String.ext
      simp [String.intercalate]
    | cons a as =>
      apply String.ext
      simp only [List.isEmpty_cons, Bool.false_eq_true, if_false, String.data_append,
        List.append_assoc]
  · show false = _
    cases acc <;> rfl

/-- The destruction of a live timer keeps a session in good order: the object is gone
and its End record joins the records of the file. -/
theorem sessionInv_destruct (w : World) (n : Nat) (live : List Nat) (acc : List String)
    (obj : Nat) (now : Int) (h : SessionInv w n live acc) (hobj : obj ∈ live) :
    ∃ r : String, recordOf w (.destruct obj now) = some r
      ∧ SessionInv (step w (.destruct obj now)) n (live.erase obj) (acc ++ [r]) := by
  obtain ⟨hlt, t, ht, hin⟩ := h.live_ok obj hobj
  have hacc : acc ≠ [] := h.live_acc (List.ne_nil_of_mem hobj)
  refine ⟨eventRecord t.m_sFunctionName "E" (now - w.statics.ms_iZeroTime) t.m_iThreadId
    t.m_sFileName t.m_iLineNumber, by simp only [recordOf, ht], ?_⟩
  have hw1 : step w (.destruct obj now)
      = { statics := (t.destruct w.statics now).1, objects := w.objects.set obj none } := by
    simp only [step, ht]
  have hA := appends_destruct w.statics t now
  rw [hw1]
  refine ⟨by rw [hA.enabled]; exact h.enabled, by rw [hA.is_open]; exact h.is_open,
    by rw [hA.good]; exact h.good, by simp [h.len], ?_, h.nodup.erase obj, ?_, ?_, by simp⟩
  · intro i hi
    have hi' := (List.Nodup.mem_erase_iff h.nodup).mp hi
    obtain ⟨hlt', t', ht', hin'⟩ := h.live_ok i hi'.2
    refine ⟨hlt', t', ?_, hin'⟩
    simp only [List.getD_eq_getElem?_getD] at ht' ⊢
    rw [List.getElem?_set_ne (fun e => hi'.1 e.symm)]
    exact ht'
  · simp only [World.file]
    rw [destruct_content _ t now h.enabled hin h.is_open h.good, intercalate_append_singleton]
    have hf := h.file
    simp only [World.file] at hf
    rw [hf]
    cases acc with
    | nil => exact absurd rfl hacc
    | cons a as =>
      apply String.ext
      simp only [List.isEmpty_cons, Bool.false_eq_true, if_false, String.data_append,
        List.append_assoc]
  · rw [destruct_first, h.first]
    cases acc with
    | nil => exact absurd rfl hacc
    | cons a as => simp

/-- Constructions and destructions in good order keep the session in good order, and
they emit two records for every timer constructed and one for every timer that was
alive before. -/
theorem sessionInv_run (cs : List Call) :
    ∀ (w : World) (n : Nat) (live : List Nat) (acc : List String),
      SessionInv w n live acc → timersBracketed n live cs = true →
      (∃ n' : Nat, SessionInv (run w cs) n' [] (acc ++ recordsOf w cs))
      ∧ (recordsOf w cs).length = 2 * (cs.filter Call.isConstruct).length + live.length := by
  induction cs with
  | nil =>
    intro w n live acc h hb
    have hl : live = [] := by
      cases live with
      | nil => rfl
      | cons a as => simp [timersBracketed] at hb
    subst hl
    exact ⟨⟨n, by simpa [recordsOf, run_nil] using h⟩, rfl⟩
  | cons c cs ih =>
    intro w n live acc h hb
    cases c with
    | enable a o m => simp [timersBracketed] at hb
    | disable => simp [timersBracketed] at hb
    | setPrintToTerminal obj b => simp [timersBracketed] at hb
    | traceQuantity name val now => simp [timersBracketed] at hb
    | construct file function lineNumber now longId =>
      obtain ⟨r, hr, hinv⟩ := sessionInv_construct w n live acc file function lineNumber now
        longId h
      have hb' : timersBracketed (n + 1) (n :: live) cs = true := hb
      obtain ⟨⟨n', hfin⟩, hlen⟩ := ih _ _ _ _ hinv hb'
      have hrec : recordsOf w (.construct file function lineNumber now longId :: cs)
          = r :: recordsOf (step w (.construct file function lineNumber now longId)) cs := by
        simp only [recordsOf, hr, Option.toList, List.singleton_append]
      rw [hrec, run_cons]
      refine ⟨⟨n', by simpa [List.append_assoc] using hfin⟩, ?_⟩
      simp only [List.length_cons, hlen, List.filter_cons, Call.isConstruct, if_true]
      omega
    | destruct obj now =>
      have hb' : live.contains obj = true ∧ timersBracketed n (live.erase obj) cs = true := by
        simpa [timersBracketed] using hb
      have hmem : obj ∈ live := by simpa using hb'.1
      obtain ⟨r, hr, hinv⟩ := sessionInv_destruct w n live acc obj now h hmem
      obtain ⟨⟨n', hfin⟩, hlen⟩ := ih _ _ _ _ hinv hb'.2
      have hrec : recordsOf w (.destruct obj now :: cs)
          = r :: recordsOf (step w (.destruct obj now)) cs := by
        simp only [recordsOf, hr, Option.toList, List.singleton_append]
      rw [hrec, run_cons]
      refine ⟨⟨n', by simpa [List.append_assoc] using hfin⟩, ?_⟩
      have hpos : 0 < live.length := List.length_pos_of_mem hmem
      simp only [List.length_cons, hlen, List.filter_cons, Call.isConstruct,
        List.length_erase_of_mem hmem]
      simp
      omega

/-- On an enabled tracer whose stream takes writes `disable` appends the footer. -/
theorem disable_content (g : Statics) (hen : g.ms_bIsEnabled = true)
    (ho : g.ms_OutputFileStream.is_open = true) (hg : g.ms_OutputFileStream.good = true) :
    (disable g).ms_OutputFileStream.content = g.ms_OutputFileStream.content ++ footerText := by
  simp [disable, writeFooter, writeToFile, OFStream.put, OFStream.flush, OFStream.close,
    hen, ho, hg, footerText]

/-- C18. From program start, one `enable` call whose file opens, then constructions
and destructions in which every destruction names a timer that is alive and no timer
is left alive, then `disable`: the file is the header, the Begin and End records in
the order of the calls with exactly one comma between neighbours, and the footer.
There are twice as many records as timers, and the first record, if there is one, is
a Begin record. -/
theorem C18_timer_session_file (path : String) (now0 : Int) (cs : List Call)
    (hcs : timersBracketed 0 [] cs = true) :
    (run World.init (.enable path true now0 :: (cs ++ [.disable]))).file
        = headerText ++
            ",".intercalate (recordsOf (step World.init (.enable path true now0)) cs) ++
            footerText
    ∧ (recordsOf (step World.init (.enable path true now0)) cs).length
        = 2 * (cs.filter Call.isConstruct).length
    ∧ ∀ r : String, (recordsOf (step World.init (.enable path true now0)) cs).head? = some r →
        ∃ (fn tid file : String) (ts line : Int), r = eventRecord fn "B" ts tid file line := by
  have h0 : SessionInv (step World.init (.enable path true now0)) 0 [] [] :=
    ⟨rfl, rfl, rfl, rfl, fun i hi => by simp at hi, List.nodup_nil, rfl, rfl,
      fun h => absurd rfl h⟩
  obtain ⟨⟨n', hfin⟩, hlen⟩ := sessionInv_run cs _ 0 [] [] h0 hcs
  refine ⟨?_, by simpa using hlen, ?_⟩
  · rw [run_cons, run_append]
    have hf := hfin.file
    simp only [List.nil_append] at hf
    rw [← hf]
    exact disable_content _ hfin.enabled hfin.is_open hfin.good
  · intro r hr
    cases cs with
    | nil => simp [recordsOf] at hr
    | cons c cs =>
      cases c with
      | enable a o m => simp [timersBracketed] at hcs
      | disable => simp [timersBracketed] at hcs
      | setPrintToTerminal obj b => simp [timersBracketed] at hcs
      | traceQuantity name val now => simp [timersBracketed] at hcs
      | destruct obj now => simp [timersBracketed] at hcs
      | construct file function lineNumber now longId =>
        simp only [recordsOf, recordOf, Option.toList, List.singleton_append, List.head?_cons,
          Option.some.injEq] at hr
        exact ⟨_, _, _, _, _, hr.symm⟩

set_option maxRecDepth 20000 in
/-- C18 at a session of two nested timers. -/
theorem C18_timer_session_file_witness :
    (run World.init (.enable "t.json" true 100 ::
        ([.construct "m.cpp" "f" 7 110 12345, .construct "m.cpp" "g" 9 120 12345,
          .destruct 1 130, .destruct 0 140] ++ [.disable]))).file
      = headerText ++ ",".intercalate
          ["\x7b\"name\":\"f\",\"cat\":\"bst\",\"ph\":\"B\",\"ts\":10,\"pid\":1,\"tid\":12345,\"args\":\x7b\"file path\":\"m.cpp\",\"line number\":7\x7d\x7d\n",
           "\x7b\"name\":\"g\",\"cat\":\"bst\",\"ph\":\"B\",\"ts\":20,\"pid\":1,\"tid\":12345,\"args\":\x7b\"file path\":\"m.cpp\",\"line number\":9\x7d\x7d\n",
           "\x7b\"name\":\"g\",\"cat\":\"bst\",\"ph\":\"E\",\"ts\":30,\"pid\":1,\"tid\":12345,\"args\":\x7b\"file path\":\"m.cpp\",\"line number\":9\x7d\x7d\n",
           "\x7b\"name\":\"f\",\"cat\":\"bst\",\"ph\":\"E\",\"ts\":40,\"pid\":1,\"tid\":12345,\"args\":\x7b\"file path\":\"m.cpp\",\"line number\":7\x7d\x7d\n"]
          ++ footerText :=
  (C18_timer_session_file "t.json" 100
    [.construct "m.cpp" "f" 7 110 12345, .construct "m.cpp" "g" 9 120 12345,
     .destruct 1 130, .destruct 0 140] (by decide)).1.trans (by rfl)

/-! ## What `formatFileName` does to backslashes that stand apart -/

theorem escapeBackslashes_append (a b : List Char) :
    escapeBackslashes (a ++ b) = escapeBackslashes a ++ escapeBackslashes b := by
  induction a with
  | nil => rfl
  | cons c cs ih =>
    rw [List.cons_append, escapeBackslashes, escapeBackslashes, ih]
    split <;> simp

theorem escapeBackslashes_plain (l : List Char) (h : '\\' ∉ l) : escapeBackslashes l = l := by
  induction l with
  | nil => rfl
  | cons c cs ih =>
    have hc : c ≠ '\\' := fun e => h (e ▸ List.mem_cons_self c cs)
    have hcs : '\\' ∉ cs := fun e => h (List.mem_cons_of_mem c e)
    simp only [escapeBackslashes, hc, if_false, ih hcs]

theorem findFrom_backslash_none (l : List Char) :
    ∀ i : Nat, findFrom "\\".data l i = none → '\\' ∉ l := by
  induction l with
  | nil => intro i _; simp
  | cons c cs ih =>
    intro i h
    unfold findFrom at h
    split at h
    · simp at h
    · next hp =>
      have hc : c ≠ '\\' := by
        intro e
        apply hp
        rw [e]
        show List.isPrefixOf ['\\'] ('\\' :: cs) = true
        simp [List.isPrefixOf]
      intro hm
      rcases List.mem_cons.mp hm with e | e
      · exact hc e.symm
      · exact ih (i + 1) h e

/-- Where `find` reports a backslash, the text before it from the start of the search
has none. -/
theorem findFrom_backslash_some (l : List Char) :
    ∀ (i p : Nat), findFrom "\\".data l i = some p →
      ∃ pre post : List Char, l = pre ++ '\\' :: post ∧ '\\' ∉ pre ∧ p = i + pre.length := by
  induction l with
  | nil =>
    intro i p h
    simp [findFrom] at h
  | cons c cs ih =>
    intro i p h
    unfold findFrom at h
    split at h
    · next hp =>
      have hc : c = '\\' := by
        have hp' : List.isPrefixOf ['\\'] (c :: cs) = true := hp
        simp [List.isPrefixOf] at hp'
        exact hp'.symm
      simp only [Option.some.injEq] at h
      exact ⟨[], cs, by rw [hc]; rfl, by simp, by simp [h]⟩
    · next hp =>
      have hc : c ≠ '\\' := by
        intro e
        apply hp
        rw [e]
        show List.isPrefixOf ['\\'] ('\\' :: cs) = true
        simp [List.isPrefixOf]
      obtain ⟨pre, post, hl, hpre, hpos⟩ := ih (i + 1) p h
      refine ⟨c :: pre, post, by rw [hl]; rfl, ?_, by simp [hpos]; omega⟩
      intro hm
      rcases List.mem_cons.mp hm with e | e
      · exact hc e.symm
      · exact hpre e

theorem backslashesApart_append_right (a b : List Char) (h : backslashesApart (a ++ b) = true) :
    backslashesApart b = true := by
  induction a with
  | nil => exact h
  | cons c cs ih =>
    simp only [List.cons_append, backslashesApart, Bool.and_eq_true] at h
    exact ih h.2

theorem backslashesApart_drop (k : Nat) (l : List Char) (h : backslashesApart l = true) :
    backslashesApart (l.drop k) = true := by
  have h' : backslashesApart (l.take k ++ l.drop k) = true := by
    rw [List.take_append_drop]; exact h
  exact backslashesApart_append_right _ _ h'

theorem backslashesApart_after (post : List Char)
    (h : backslashesApart ('\\' :: post) = true) : '\\' ∉ post.take 2 := by
  simp only [backslashesApart, Bool.and_eq_true, Bool.or_eq_true, List.all_eq_true] at h
  rcases h.1 with h1 | h1
  · simp at h1
  · intro hm
    have := h1 _ hm
    simp at this

theorem std_replace_at (A post rep : List Char) (c : Char) (p : Nat) (hp : A.length = p) :
    std_replace (A ++ c :: post) p 1 rep = A ++ rep ++ post := by
  unfold std_replace
  have hsplit : A ++ c :: post = (A ++ [c]) ++ post := by simp
  have hd : (A ++ c :: post).drop (p + 1) = post := by
    rw [hsplit]
    exact List.drop_left' (by simp [hp])
  rw [hd, List.take_left' hp]

/-- On a text whose backslashes from `start_pos` on stand apart, the loop of
`formatFileName` leaves the text before `start_pos` alone and doubles every backslash
after it, provided the fuel covers the rest of the text. -/
theorem formatFileNameLoop_apart (fuel : Nat) :
    ∀ (s : List Char) (start_pos : Nat), s.length + 1 ≤ start_pos + fuel →
      backslashesApart (s.drop start_pos) = true →
      TimeTracer.formatFileNameLoop fuel s start_pos
        = s.take start_pos ++ escapeBackslashes (s.drop start_pos) := by
  induction fuel with
  | zero =>
    intro s start_pos hf _
    rw [List.drop_of_length_le (by omega), List.take_of_length_le (by omega)]
    simp [TimeTracer.formatFileNameLoop, escapeBackslashes]
  | succ n ih =>
    intro s start_pos hf ha
    rw [TimeTracer.formatFileNameLoop]
    dsimp only
    cases hfnd : std_find s "\\".data start_pos with
    | none =>
      dsimp only
      unfold std_find at hfnd
      split at hfnd
      · rw [List.drop_of_length_le (by omega), List.take_of_length_le (by omega)]
        simp [escapeBackslashes]
      · rw [escapeBackslashes_plain _ (findFrom_backslash_none _ _ hfnd),
          List.take_append_drop]
    | some p =>
      dsimp only
      unfold std_find at hfnd
      split at hfnd
      · simp at hfnd
      · next hle =>
        obtain ⟨pre, post, hl, hpre, hp⟩ := findFrom_backslash_some _ _ _ hfnd
        have hlen : (s.take start_pos).length = start_pos :=
          List.length_take_of_le (by omega)
        obtain ⟨A, hA⟩ : ∃ A : List Char, A = s.take start_pos ++ pre := ⟨_, rfl⟩
        have hAlen : A.length = p := by rw [hA, List.length_append, hlen, hp]
        have hs : A ++ '\\' :: post = s := by
          rw [hA, List.append_assoc, ← hl, List.take_append_drop]
        have hrep : std_replace s p 1 "\\\\".data = A ++ "\\\\".data ++ post := by
          have := std_replace_at A post "\\\\".data '\\' p hAlen
          rwa [hs] at this
        have hslen : s.length = p + 1 + post.length := by
          rw [← hs, List.length_append, hAlen, List.length_cons]; omega
        have hpost : backslashesApart ('\\' :: post) = true := by
          rw [hl] at ha
          exact backslashesApart_append_right _ _ ha
        have hpost2 : backslashesApart (post.drop 2) = true := by
          have h1 : backslashesApart post = true := by
            simp only [backslashesApart, Bool.and_eq_true] at hpost
            exact hpost.2
          exact backslashesApart_drop 2 post h1
        have hAr : (A ++ "\\\\".data).length = p + 2 := by
          rw [List.length_append, hAlen]; rfl
        have hdrop : (A ++ "\\\\".data ++ post).drop (p + 4) = post.drop 2 := by
          rw [show p + 4 = (A ++ "\\\\".data).length + 2 by rw [hAr], List.drop_append]
        have htake : (A ++ "\\\\".data ++ post).take (p + 4)
            = A ++ "\\\\".data ++ post.take 2 := by
          rw [show p + 4 = (A ++ "\\\\".data).length + 2 by rw [hAr], List.take_append]
        rw [hrep, ih _ (p + 4) (by simp [hAlen]; omega) (by rw [hdrop]; exact hpost2),
          hdrop, htake, hl, escapeBackslashes_append, escapeBackslashes_plain pre hpre, hA]
        have hesc : escapeBackslashes ('\\' :: post)
            = '\\' :: '\\' :: (post.take 2 ++ escapeBackslashes (post.drop 2)) := by
          rw [escapeBackslashes]
          simp only [if_true]
          conv_lhs => rw [← List.take_append_drop 2 post]
          rw [escapeBackslashes_append,
            escapeBackslashes_plain _ (backslashesApart_after post hpost)]
        rw [hesc]
        simp [List.append_assoc]

/-- On a file name whose backslashes stand apart `formatFileName` doubles every
backslash and keeps every other character. -/
theorem formatFileName_apart (t : TimeTracer) (h : backslashesApart t.m_sFileName.data = true) :
    (TimeTracer.formatFileName t).m_sFileName = String.mk (escapeBackslashes t.m_sFileName.data) := by
  have hlen : t.m_sFileName.length = t.m_sFileName.data.length := rfl
  have hloop := formatFileNameLoop_apart (t.m_sFileName.length + 1) t.m_sFileName.data 0
    (by omega) h
  unfold TimeTracer.formatFileName
  simp only
  rw [hloop]
  rfl

/-! ## The claims on the text of the records -/

/-- C5, as the claim states it, fails. The counter name `a"b` is written with its
double quote raw: in the record the quote stands at offset 10 and the character before
it is `a`, not a backslash. The same happens to a double quote in the function name
and in the file path of a scope timer, and a backslash in a name is written raw as
well: for the counter name `a\z` the backslash stands at offset 10 between `a` and
`z`. -/
theorem C5_reserved_characters_appear_raw :
    traceQuantityText Statics.init "a\"b" 4 0
      = "\x7b\"name\":\"a\"b\",\"ph\":\"C\",\"ts\":0,\"pid\":1,\"tid\":1,\"args\":\x7b\"a\"b\":4\x7d\x7d\n"
    ∧ (traceQuantityText Statics.init "a\"b" 4 0).data[10]? = some '\"'
    ∧ (traceQuantityText Statics.init "a\"b" 4 0).data[9]? = some 'a'
    ∧ TimeTracer.beginEventText (enable Statics.init "t.json" true 100)
        (TimeTracer.construct (enable Statics.init "t.json" true 100) "q\"r.cpp" "say \"hi\"" 7
          110 12345).2
      = "\x7b\"name\":\"say \"hi\"\",\"cat\":\"bst\",\"ph\":\"B\",\"ts\":10,\"pid\":1,\"tid\":12345,\"args\":\x7b\"file path\":\"q\"r.cpp\",\"line number\":7\x7d\x7d\n"
    ∧ traceQuantityText Statics.init "a\\z" 4 0
      = "\x7b\"name\":\"a\\z\",\"ph\":\"C\",\"ts\":0,\"pid\":1,\"tid\":1,\"args\":\x7b\"a\\z\":4\x7d\x7d\n"
    ∧ (traceQuantityText Statics.init "a\\z" 4 0).data[9]? = some 'a'
    ∧ (traceQuantityText Statics.init "a\\z" 4 0).data[10]? = some '\\'
    ∧ (traceQuantityText Statics.init "a\\z" 4 0).data[11]? = some 'z' := by
  refine ⟨by rfl, by rfl, by rfl, by rfl, by rfl, by rfl, by rfl, by rfl⟩

/-- C5, amended. The encoder escapes nothing but backslashes of the file path. For a
timer constructed while tracing is enabled the function name in the object and in
both records is the caller's string, character for character, and the counter record
carries the caller's name unchanged in the name field and in the argument key. The
file path in the object and in both records is what `formatFileName` makes of the
caller's string: when no backslash stands among the two characters after a backslash,
that is the string with every backslash replaced by two and every other character
kept. -/
theorem C5_names_verbatim_path_backslashes_doubled (g : Statics)
    (file function name : String) (lineNumber val nowB nowE nowC : Int) (longId : Nat)
    (hen : g.ms_bIsEnabled = true) (hfile : backslashesApart file.data = true) :
    ∃ t : TimeTracer,
      t = (TimeTracer.construct g file function lineNumber nowB longId).2
      ∧ t.m_sFunctionName = function
      ∧ t.m_sFileName = String.mk (escapeBackslashes file.data)
      ∧ t.beginEventText g
          = (if g.ms_bIsFirstEvent then "" else ",") ++
            eventRecord function "B" (nowB - g.ms_iZeroTime) t.m_iThreadId
              (String.mk (escapeBackslashes file.data)) lineNumber
      ∧ (t.registerFinalTime g nowE).endEventText
          = "," ++ eventRecord function "E" (nowE - g.ms_iZeroTime) t.m_iThreadId
              (String.mk (escapeBackslashes file.data)) lineNumber
      ∧ traceQuantityText g name val nowC = counterRecord name (nowC - g.ms_iZeroTime) val := by
  have hc := construct_enabled g file function lineNumber nowB longId hen
  have hpath : (TimeTracer.initialize_ g (TimeTracer.memberInit file function lineNumber) nowB
      longId).m_sFileName = String.mk (escapeBackslashes file.data) := by
    simp only [TimeTracer.initialize_]
    exact formatFileName_apart _ hfile
  generalize ht : TimeTracer.initialize_ g
    (TimeTracer.memberInit file function lineNumber) nowB longId = t at hc hpath
  have hfn : t.m_sFunctionName = function := by rw [← ht]; rfl
  have hln : t.m_iLineNumber = lineNumber := by rw [← ht]; rfl
  have hbt : t.m_iBeginTime = nowB - g.ms_iZeroTime := by rw [← ht]; rfl
  refine ⟨t, by rw [hc], hfn, hpath, ?_, ?_, traceQuantityText_eq g name val nowC⟩
  · rw [beginEventText_eq, hfn, hpath, hln, hbt]
  · rw [endEventText_eq]
    simp only [TimeTracer.registerFinalTime, hfn, hpath, hln]

/-- C5, amended, at a timer whose file path holds two backslashes and whose function
name holds double quotes, and at a counter whose name holds a backslash. -/
theorem C5_names_verbatim_path_backslashes_doubled_witness :
    TimeTracer.beginEventText (enable Statics.init "t.json" true 100)
        (TimeTracer.construct (enable Statics.init "t.json" true 100) "C:\\dir\\main.cpp"
          "say \"hi\"" 7 110 12345).2
      = "\x7b\"name\":\"say \"hi\"\",\"cat\":\"bst\",\"ph\":\"B\",\"ts\":10,\"pid\":1,\"tid\":12345,\"args\":\x7b\"file path\":\"C:\\\\dir\\\\main.cpp\",\"line number\":7\x7d\x7d\n"
    ∧ traceQuantityText (enable Statics.init "t.json" true 100) "a\\z" 4 130
      = "\x7b\"name\":\"a\\z\",\"ph\":\"C\",\"ts\":30,\"pid\":1,\"tid\":1,\"args\":\x7b\"a\\z\":4\x7d\x7d\n" := by
  obtain ⟨t, ht, _, _, hB, _, hC⟩ :=
    C5_names_verbatim_path_backslashes_doubled (enable Statics.init "t.json" true 100)
      "C:\\dir\\main.cpp" "say \"hi\"" "a\\z" 7 4 110 120 130 12345 (by decide) (by decide)
  subst ht
  exact ⟨hB.trans (by rfl), hC.trans (by rfl)⟩

/-- C8. A session in which a counter sample comes before the first timer: the counter
call leaves the first-event flag true, so the Begin record of the timer, the second
record of the file, is written without a comma in front. The record text itself is
the one of the trace format. -/
theorem C8_begin_after_counter_lacks_comma :
    (run World.init [.enable "t.json" true 100,
        .traceQuantity "depth" 4 105]).statics.ms_bIsFirstEvent = true
    ∧ (run World.init [.enable "t.json" true 100, .traceQuantity "depth" 4 105,
        .construct "m.cpp" "f" 7 110 12345]).file
      = "\x7b\"displayTimeUnit\": \"ms\",\"traceEvents\":[\n\x7b\"name\":\"depth\",\"ph\":\"C\",\"ts\":5,\"pid\":1,\"tid\":1,\"args\":\x7b\"depth\":4\x7d\x7d\n\x7b\"name\":\"f\",\"cat\":\"bst\",\"ph\":\"B\",\"ts\":10,\"pid\":1,\"tid\":12345,\"args\":\x7b\"file path\":\"m.cpp\",\"line number\":7\x7d\x7d\n"
    ∧ (run World.init [.enable "t.json" true 100, .traceQuantity "depth" 4 105,
        .construct "m.cpp" "f" 7 110 12345]).file
      = headerText ++ counterRecord "depth" 5 4 ++ eventRecord "f" "B" 10 "12345" "m.cpp" 7
    ∧ (run World.init [.enable "t.json" true 100, .traceQuantity "depth" 4 105,
        .construct "m.cpp" "f" 7 110 12345]).file
      ≠ headerText ++ counterRecord "depth" 5 4 ++ "," ++
          eventRecord "f" "B" 10 "12345" "m.cpp" 7 := by
  refine ⟨by rfl, by rfl, by rfl, ?_⟩
  decide

end TracerLib
